import Mathlib

/-!
Verification development for the Nexora AIML backend's extraction, repair
and schema-normalization pipeline (src/invoice_2.py, src/credit_score.py,
src/market.py, src/policy_generator.py).

Python values decoded from JSON are modelled by `PyVal`; Python `Decimal`
values and floats are modelled by exact rationals (a float literal denotes
its exact rational value; the binary rounding of `float` literals is
idealized away and never relied on in any theorem).  Functions that can
raise return `Except String`; the error string names the Python exception.
-/

namespace Nexora

/-- Python's whitespace class `\s` restricted to ASCII, which is the only
alphabet exercised by the pipeline. -/
def pyWs (c : Char) : Bool :=
  c = ' ' ∨ c = '\t' ∨ c = '\n' ∨ c = '\r' ∨ c = '\x0b' ∨ c = '\x0c'

def isDig (c : Char) : Bool := '0' ≤ c ∧ c ≤ '9'

/-- Python `str.strip()` on the character list. -/
def stripL (l : List Char) : List Char :=
  ((l.dropWhile pyWs).reverse.dropWhile pyWs).reverse

/-- Python `str.strip()`. -/
def stripStr (s : String) : String := String.mk (stripL s.data)

/-- Python `str.lower()` (ASCII). -/
def lowerStr (s : String) : String :=
  String.mk (s.data.map Char.toLower)

/-- Does `pat` occur at the head of `l`? -/
def matchHead : List Char → List Char → Bool
  | [], _ => true
  | _ :: _, [] => false
  | p :: ps, c :: cs => p = c ∧ matchHead ps cs

/-- Python's `pat in hay` substring test. -/
def hasSub : List Char → List Char → Bool
  | hay, pat =>
    if matchHead pat hay then true
    else
      match hay with
      | [] => false
      | _ :: t => hasSub t pat

def hasSubStr (hay pat : String) : Bool := hasSub hay.data pat.data

def natOfDigits (l : List Char) : ℕ :=
  l.foldl (fun a c => 10 * a + (c.toNat - 48)) 0

def digitChar (n : ℕ) : Char := Char.ofNat (48 + n)

def natReprAux : ℕ → ℕ → List Char
  | 0, _ => []
  | f + 1, n =>
    if n < 10 then [digitChar n]
    else natReprAux f (n / 10) ++ [digitChar (n % 10)]

def natRepr (n : ℕ) : String := String.mk (natReprAux (n + 1) n)

def intRepr (n : ℤ) : String :=
  if n < 0 then ("-") ++ natRepr (-n).toNat else natRepr n.toNat

/-- Decoded Python values: JSON value trees as produced by `json.loads`,
plus the values API callers pass in directly.  Dict entries keep insertion
order; duplicate keys resolve to the last occurrence, as in Python. -/
inductive PyVal where
  | null : PyVal
  | bool : Bool → PyVal
  | int : ℤ → PyVal
  | float : ℚ → PyVal
  | str : String → PyVal
  | list : List PyVal → PyVal
  | dict : List (String × PyVal) → PyVal

/-- Python `dict.get(k, dflt)` over an insertion-ordered entry list
(last occurrence of a duplicated key wins). -/
def dGet (kvs : List (String × PyVal)) (k : String) (dflt : PyVal) : PyVal :=
  match kvs.reverse.find? (fun p => p.1 == k) with
  | some p => p.2
  | none => dflt

/-- Python `v.get(k, dflt)`: raises `AttributeError` unless `v` is a dict. -/
def chainGet (v : PyVal) (k : String) (dflt : PyVal) : Except String PyVal :=
  match v with
  | .dict kvs => .ok (dGet kvs k dflt)
  | _ => .error ("AttributeError")

/-- Numeric-string grammar shared by Python `float(str)` and `Decimal(str)`:
optional surrounding whitespace, optional sign, digits with an optional
fractional part, optional exponent.  (`inf`/`nan` spellings and digit
underscores are not modelled and never exercised.) -/
def parseNumStr (l0 : List Char) : Option ℚ :=
  let l1 := ((l0.dropWhile pyWs).reverse.dropWhile pyWs).reverse
  let (sgn, l2) : ℚ × List Char :=
    match l1 with
    | '+' :: r => (1, r)
    | '-' :: r => (-1, r)
    | r => (1, r)
  let ip := l2.takeWhile isDig
  let r1 := l2.dropWhile isDig
  let (fp, r2) : List Char × List Char :=
    match r1 with
    | '.' :: r => (r.takeWhile isDig, r.dropWhile isDig)
    | r => ([], r)
  if ip = [] ∧ fp = [] then none
  else
    let base : ℚ := (natOfDigits ip : ℚ) + (natOfDigits fp : ℚ) / (10 ^ fp.length : ℕ)
    match r2 with
    | [] => some (sgn * base)
    | 'e' :: r3 => parseNumExp sgn base r3
    | 'E' :: r3 => parseNumExp sgn base r3
    | _ => none
where
  parseNumExp (sgn base : ℚ) (r3 : List Char) : Option ℚ :=
    let (esgn, r4) : Bool × List Char :=
      match r3 with
      | '+' :: r => (false, r)
      | '-' :: r => (true, r)
      | r => (false, r)
    let ed := r4.takeWhile isDig
    let r5 := r4.dropWhile isDig
    if ed = [] ∨ r5 ≠ [] then none
    else
      let e := natOfDigits ed
      some (if esgn then sgn * base / (10 ^ e : ℕ) else sgn * base * (10 ^ e : ℕ))

/-- Python `int(str)` grammar: optional surrounding whitespace, optional
sign, digits only. -/
def parseIntStr (l0 : List Char) : Option ℤ :=
  let l1 := ((l0.dropWhile pyWs).reverse.dropWhile pyWs).reverse
  let (neg, l2) : Bool × List Char :=
    match l1 with
    | '+' :: r => (false, r)
    | '-' :: r => (true, r)
    | r => (false, r)
  if l2 = [] ∨ l2.dropWhile isDig ≠ [] then none
  else some (if neg then -(natOfDigits l2 : ℤ) else (natOfDigits l2 : ℤ))

/-- Truncation toward zero, as in Python `int(float)`. -/
def intTrunc (q : ℚ) : ℤ := if q < 0 then ⌈q⌉ else ⌊q⌋

/-- Python `Decimal(x)` as an exact rational.  `Decimal(bool)` is 1/0 since
bool is an int subclass; non-numeric values raise. -/
def pyDecimal : PyVal → Except String ℚ
  | .int n => .ok (n : ℚ)
  | .bool b => .ok (if b then 1 else 0)
  | .float q => .ok q
  | .str s =>
    match parseNumStr s.data with
    | some q => .ok q
    | none => .error ("InvalidOperation")
  | _ => .error ("TypeError")

/-- Python `float(x)`. -/
def pyFloatCoerce : PyVal → Except String ℚ
  | .int n => .ok (n : ℚ)
  | .bool b => .ok (if b then 1 else 0)
  | .float q => .ok q
  | .str s =>
    match parseNumStr s.data with
    | some q => .ok q
    | none => .error ("ValueError")
  | _ => .error ("TypeError")

/-- Python `int(x)`. -/
def pyIntCoerce : PyVal → Except String ℤ
  | .int n => .ok n
  | .bool b => .ok (if b then 1 else 0)
  | .float q => .ok (intTrunc q)
  | .str s =>
    match parseIntStr s.data with
    | some n => .ok n
    | none => .error ("ValueError")
  | _ => .error ("TypeError")

/-- Round to the nearest integer, ties to the even integer: the rounding
used by `Decimal.quantize` under Python's default context
(`ROUND_HALF_EVEN`). -/
def roundHalfEven (x : ℚ) : ℤ :=
  let f := ⌊x⌋
  let r := x - (f : ℚ)
  if r < 1 / 2 then f
  else if 1 / 2 < r then f + 1
  else if f % 2 = 0 then f else f + 1

/-- Models `Decimal(x).quantize(Decimal("0.01"))` under the default context. -/
def quantize2 (q : ℚ) : ℚ := ((roundHalfEven (q * 100) : ℤ) : ℚ) / 100

/-- Modelled from the spec: the round-half-up rule the spec prescribes for
monetary quantization (ties away from zero, as in decimal `ROUND_HALF_UP`).
Stated only to be compared against the code's actual rounding. -/
def roundHalfUpSpec (x : ℚ) : ℤ :=
  if x < 0 then -⌊-x + 1 / 2⌋ else ⌊x + 1 / 2⌋

/-- Modelled from the spec: quantization to 2 decimal places under
round-half-up. -/
def quantize2HalfUpSpec (q : ℚ) : ℚ := ((roundHalfUpSpec (q * 100) : ℤ) : ℚ) / 100

/-- JSON's whitespace class (Python `json` strict mode). -/
def jsonWs (c : Char) : Bool := c = ' ' ∨ c = '\t' ∨ c = '\n' ∨ c = '\r'

def skipJWs (l : List Char) : List Char := l.dropWhile jsonWs

def hexVal (c : Char) : Option ℕ :=
  if '0' ≤ c ∧ c ≤ '9' then some (c.toNat - 48)
  else if 'a' ≤ c ∧ c ≤ 'f' then some (c.toNat - 87)
  else if 'A' ≤ c ∧ c ≤ 'F' then some (c.toNat - 55)
  else none

/-- Body of a JSON string after the opening quote, with escapes.  Strict
mode: unescaped control characters are rejected.  (Surrogate-pair `\u`
escapes are idealized as single code points; never exercised.) -/
def parseJStr : List Char → Option (List Char × List Char)
  | [] => none
  | '"' :: rest => some ([], rest)
  | '\\' :: 'u' :: h1 :: h2 :: h3 :: h4 :: rest =>
    match hexVal h1, hexVal h2, hexVal h3, hexVal h4 with
    | some a, some b, some c, some d =>
      (parseJStr rest).map (fun p => (Char.ofNat (((a * 16 + b) * 16 + c) * 16 + d) :: p.1, p.2))
    | _, _, _, _ => none
  | '\\' :: e :: rest =>
    match escCharOf e with
    | some c => (parseJStr rest).map (fun p => (c :: p.1, p.2))
    | none => none
  | c :: rest =>
    if c.toNat < 32 then none
    else (parseJStr rest).map (fun p => (c :: p.1, p.2))
where
  escCharOf (e : Char) : Option Char :=
    if e = '"' then some '"'
    else if e = '\\' then some '\\'
    else if e = '/' then some '/'
    else if e = 'b' then some '\x08'
    else if e = 'f' then some '\x0c'
    else if e = 'n' then some '\n'
    else if e = 'r' then some '\r'
    else if e = 't' then some '\t'
    else none

/-- JSON number at the head of the input.  Integer literals decode to
`PyVal.int`; literals with a fraction or exponent decode to `PyVal.float`
carrying their exact rational value (idealizing the binary float). -/
def parseJNum (l : List Char) : Option (PyVal × List Char) :=
  let (neg, l1) : Bool × List Char :=
    match l with
    | '-' :: r => (true, r)
    | r => (false, r)
  let ip := l1.takeWhile isDig
  let r1 := l1.dropWhile isDig
  if ip = [] then none
  else
    let (fp, hasF, r2) : List Char × Bool × List Char :=
      match r1 with
      | '.' :: r => (r.takeWhile isDig, true, r.dropWhile isDig)
      | r => ([], false, r)
    if hasF ∧ fp = [] then none
    else
      let (ed, esgn, hasE, r3) : List Char × Bool × Bool × List Char :=
        match r2 with
        | 'e' :: '+' :: r => (r.takeWhile isDig, false, true, r.dropWhile isDig)
        | 'e' :: '-' :: r => (r.takeWhile isDig, true, true, r.dropWhile isDig)
        | 'e' :: r => (r.takeWhile isDig, false, true, r.dropWhile isDig)
        | 'E' :: '+' :: r => (r.takeWhile isDig, false, true, r.dropWhile isDig)
        | 'E' :: '-' :: r => (r.takeWhile isDig, true, true, r.dropWhile isDig)
        | 'E' :: r => (r.takeWhile isDig, false, true, r.dropWhile isDig)
        | r => ([], false, false, r)
      if hasE ∧ ed = [] then none
      else
        let mag : ℚ := (natOfDigits ip : ℚ) + (natOfDigits fp : ℚ) / (10 ^ fp.length : ℕ)
        let mag := if esgn then mag / (10 ^ natOfDigits ed : ℕ) else mag * (10 ^ natOfDigits ed : ℕ)
        let v : ℚ := if neg then -mag else mag
        if hasF ∨ hasE then some (.float v, r3)
        else some (.int (if neg then -(natOfDigits ip : ℤ) else (natOfDigits ip : ℤ)), r3)

mutual

/-- One JSON value at the head of the input (fuel-indexed recursive
descent; fuel larger than the input length never runs out). -/
def parseJVal : ℕ → List Char → Option (PyVal × List Char)
  | 0, _ => none
  | fuel + 1, l =>
    match skipJWs l with
    | '{' :: rest => (parseJMems fuel rest).map (fun p => (.dict p.1, p.2))
    | '[' :: rest => (parseJItems fuel rest).map (fun p => (.list p.1, p.2))
    | '"' :: rest => (parseJStr rest).map (fun p => (.str (String.mk p.1), p.2))
    | 't' :: 'r' :: 'u' :: 'e' :: rest => some (.bool true, rest)
    | 'f' :: 'a' :: 'l' :: 's' :: 'e' :: rest => some (.bool false, rest)
    | 'n' :: 'u' :: 'l' :: 'l' :: rest => some (.null, rest)
    | l' => parseJNum l'

/-- Object members after the opening brace. -/
def parseJMems : ℕ → List Char → Option (List (String × PyVal) × List Char)
  | 0, _ => none
  | fuel + 1, l =>
    match skipJWs l with
    | '}' :: rest => some ([], rest)
    | '"' :: rest =>
      match parseJStr rest with
      | none => none
      | some (k, r1) =>
        match skipJWs r1 with
        | ':' :: r2 =>
          match parseJVal fuel r2 with
          | none => none
          | some (v, r3) =>
            match skipJWs r3 with
            | ',' :: r4 =>
              match parseJMems fuel r4 with
              | some (kvs, r5) =>
                match kvs with
                | [] => none
                | _ => some ((String.mk k, v) :: kvs, r5)
              | none => none
            | '}' :: r4 => some ([(String.mk k, v)], r4)
            | _ => none
        | _ => none
    | _ => none

/-- Array items after the opening bracket. -/
def parseJItems : ℕ → List Char → Option (List PyVal × List Char)
  | 0, _ => none
  | fuel + 1, l =>
    match skipJWs l with
    | ']' :: rest => some ([], rest)
    | l' =>
      match parseJVal fuel l' with
      | none => none
      | some (v, r1) =>
        match skipJWs r1 with
        | ',' :: r2 =>
          match parseJItems fuel r2 with
          | some (vs, r3) =>
            match vs with
            | [] => none
            | _ => some (v :: vs, r3)
          | none => none
        | ']' :: r2 => some ([v], r2)
        | _ => none

end

/-- Python `json.loads`: one value, then only trailing whitespace.
`none` models a raised `JSONDecodeError`. -/
def jsonLoads (l : List Char) : Option PyVal :=
  match parseJVal (l.length + 1) l with
  | some (v, r) => if skipJWs r = [] then some v else none
  | none => none

def toHex4 (n : ℕ) : List Char :=
  [hexDigit (n / 4096 % 16), hexDigit (n / 256 % 16), hexDigit (n / 16 % 16), hexDigit (n % 16)]
where
  hexDigit (d : ℕ) : Char := if d < 10 then Char.ofNat (48 + d) else Char.ofNat (87 + d)

/-- String-content escaping of `json.dumps` (default `ensure_ascii=True`;
code points above the BMP are idealized as a single `\u` escape and never
exercised). -/
def escChars : List Char → List Char
  | [] => []
  | c :: rest =>
    if c = '"' then '\\' :: '"' :: escChars rest
    else if c = '\\' then '\\' :: '\\' :: escChars rest
    else if c = '\n' then '\\' :: 'n' :: escChars rest
    else if c = '\t' then '\\' :: 't' :: escChars rest
    else if c = '\r' then '\\' :: 'r' :: escChars rest
    else if c = '\x08' then '\\' :: 'b' :: escChars rest
    else if c = '\x0c' then '\\' :: 'f' :: escChars rest
    else if c.toNat < 32 ∨ 127 ≤ c.toNat then '\\' :: 'u' :: toHex4 c.toNat ++ escChars rest
    else c :: escChars rest

def jsonEscape (s : String) : String := "\"" ++ String.mk (escChars s.data) ++ "\""

def joinSep (sep : String) : List String → String
  | [] => ""
  | [s] => s
  | s :: rest => s ++ sep ++ joinSep sep rest

/-- Float serialization is never exercised by any theorem; Python's
shortest-roundtrip `repr` is not modelled. -/
def floatRepr (q : ℚ) : String := intRepr q.num ++ "/" ++ natRepr q.den

mutual

def dumpsV : PyVal → String
  | .null => "null"
  | .bool b => if b then ("true") else ("false")
  | .int n => intRepr n
  | .float q => floatRepr q
  | .str s => jsonEscape s
  | .list xs => "[" ++ joinSep (", ") (dumpsL xs) ++ "]"
  | .dict kvs => "\x7b" ++ joinSep (", ") (dumpsD kvs) ++ "\x7d"

def dumpsL : List PyVal → List String
  | [] => []
  | v :: vs => dumpsV v :: dumpsL vs

def dumpsD : List (String × PyVal) → List String
  | [] => []
  | kv :: kvs => (jsonEscape kv.1 ++ ": " ++ dumpsV kv.2) :: dumpsD kvs

end

/-- Python `json.dumps` with default separators.  Every `PyVal` is
serializable, so this never raises (values that would raise `TypeError`,
such as `Decimal`, are not representable as `PyVal`). -/
def pyJsonDumps (v : PyVal) : String := dumpsV v

/-! Repair and extraction.

`decomma` models `re.sub(r",(\s*[}\]])", r"\1", text)`.  A match starts at
a comma whose next non-whitespace character is `}` or `]`; the replacement
deletes the comma and keeps the whitespace and closer.  Since a match can
only start at a comma and the kept region contains none, resuming the scan
right after the deleted comma (instead of after the whole match, as
`re.sub` does) produces the same output, and keeps the recursion
structural. -/

def isCloser (c : Char) : Bool := c = '\x7d' ∨ c = ']'

/-- Is the head of `l` a comma that is followed, after only whitespace, by
a closing brace or bracket? -/
def commaMatch : List Char → Bool
  | ',' :: rest =>
    match rest.dropWhile pyWs with
    | c :: _ => isCloser c
    | [] => false
  | _ => false

/-- Trailing-comma removal, `re.sub(r",(\s*[}\]])", r"\1", text)`. -/
def decomma : List Char → List Char
  | [] => []
  | c :: rest => if commaMatch (c :: rest) then decomma rest else c :: decomma rest

/-- Does the text contain any trailing-comma occurrence (a match of the
`decomma` pattern)? -/
def hasTrailingComma : List Char → Bool
  | [] => false
  | c :: rest => commaMatch (c :: rest) || hasTrailingComma rest

/-- Whitespace collapse, `re.sub(r"\n\s*", " ", text)`: each newline plus
the whitespace run after it becomes a single space.  The Boolean flag
tracks being inside the `\s*` of a started match. -/
def collapseAux : Bool → List Char → List Char
  | _, [] => []
  | skip, c :: rest =>
    if skip ∧ pyWs c then collapseAux true rest
    else if c = '\n' then ' ' :: collapseAux true rest
    else c :: collapseAux false rest

def collapseWs (l : List Char) : List Char := collapseAux false l

/-- The invoice/credit repair step (trailing-comma removal only). -/
def invoiceRepair (l : List Char) : List Char := decomma l

/-- The market repair step: trailing-comma removal, then whitespace
collapse (src/market.py lines 355-356). -/
def marketRepair (l : List Char) : List Char := collapseWs (decomma l)

/-- Models `re.search(r"\{[\s\S]*\}", text)`: the greedy span from the first `{`
to the last `}`, when the last `}` comes after the first `{`. -/
def braceSpan (l : List Char) : Option (List Char) :=
  let l1 := l.dropWhile (fun c => !(c = '\x7b'))
  let r := (l1.reverse.dropWhile (fun c => !(c = '\x7d'))).reverse
  if 2 ≤ r.length then some r else none

/-- The invoice extraction step (src/invoice_2.py lines 143-145): keep the
greedy brace span if the regex matches, else the text unchanged. -/
def invoiceExtract (l : List Char) : List Char :=
  match braceSpan l with
  | some s => s
  | none => l

/-- After a candidate group-closing `}`: does `\s*` followed by three
backticks come next? -/
def fenceAfter (l : List Char) : Bool :=
  match l.dropWhile pyWs with
  | a :: b :: c :: _ => a.toNat = 96 ∧ b.toNat = 96 ∧ c.toNat = 96
  | _ => false

/-- Lazy `[\s\S]*?\}` followed by `\s*` and three backticks: the body up to
the first `}` that closes the fenced block. -/
def lazyBody : List Char → Option (List Char)
  | [] => none
  | c :: rest =>
    if c = '\x7d' ∧ fenceAfter rest then some [c]
    else (lazyBody rest).map (fun b => c :: b)

/-- A match of the fenced pattern starting exactly here: three backticks,
`json` case-insensitively, optional whitespace, then the lazy group
`(\{[\s\S]*?\})` closed by `\s*` and three backticks. -/
def tryFenceAt (l : List Char) : Option (List Char) :=
  match l with
  | t1 :: t2 :: t3 :: a :: b :: c :: d :: rest =>
    if t1.toNat = 96 ∧ t2.toNat = 96 ∧ t3.toNat = 96 ∧
        a.toLower = 'j' ∧ b.toLower = 's' ∧ c.toLower = 'o' ∧ d.toLower = 'n' then
      match rest.dropWhile pyWs with
      | '\x7b' :: r2 => (lazyBody r2).map (fun bdy => '\x7b' :: bdy)
      | _ => none
    else none
  | _ => none

/-- Models `re.search` for the fenced pattern: leftmost match. -/
def fencedSearch : List Char → Option (List Char)
  | [] => none
  | c :: rest =>
    match tryFenceAt (c :: rest) with
    | some g => some g
    | none => fencedSearch rest

/-- The credit extraction step (src/credit_score.py lines 148-155): the
fenced block's group if present, else the greedy brace span, else the text
unchanged. -/
def creditExtract (l : List Char) : List Char :=
  match fencedSearch l with
  | some g => g
  | none => invoiceExtract l

def isBrace (c : Char) : Bool := c = '\x7b' ∨ c = '\x7d'

/-- The market balanced-brace scan after the first `{` has been consumed at
depth `d ≥ 1`: does the signed depth counter ever return to zero?  Called
with `d = 0` it skips everything up to the first `{` (a stray `}` at depth
0 stays at 0 by ℕ subtraction, matching "scan for the first `{`"). -/
def depthScanZero : ℕ → List Char → Bool
  | _, [] => false
  | d, c :: rest =>
    if c = '\x7b' then depthScanZero (d + 1) rest
    else if c = '\x7d' then (if d = 1 then true else depthScanZero (d - 1) rest)
    else depthScanZero d rest

/-- The spec's balanced-brace scan over the raw input: scan to the first
`{`, then walk the signed depth counter; `true` iff depth returns to 0. -/
def scanReturnsZero (l : List Char) : Bool := depthScanZero 0 l

def hasLBrace (l : List Char) : Bool := l.any (fun c => c = '\x7b')

/-- The span from the current position to the character where the depth
counter (currently `d ≥ 1`) returns to zero, if it ever does. -/
def balAux : ℕ → List Char → Option (List Char)
  | _, [] => none
  | d, c :: rest =>
    if c = '\x7b' then (balAux (d + 1) rest).map (fun s => c :: s)
    else if c = '\x7d' then
      (if d = 1 then some [c] else (balAux (d - 1) rest).map (fun s => c :: s))
    else (balAux d rest).map (fun s => c :: s)

/-- src/market.py lines 330-352: find the first `{`, then the balanced
span ending where the depth counter returns to zero. -/
def extractBalanced (l : List Char) : Option (List Char) :=
  match l.dropWhile (fun c => !(c = '\x7b')) with
  | [] => none
  | c :: rest => (balAux 1 rest).map (fun s => c :: s)

/-- Models `re.sub(r"```json\s*", "", text, flags=re.IGNORECASE)`: remove each
occurrence of three backticks plus `json` (any case) plus the whitespace
run after it.  The flag marks being inside a consumed whitespace run.

Lookahead: three backticks then `json` case-insensitively. -/
def fenceJson7 : List Char → Bool
  | t1 :: t2 :: t3 :: a :: b :: c :: d :: _ =>
    t1.toNat = 96 ∧ t2.toNat = 96 ∧ t3.toNat = 96 ∧
      a.toLower = 'j' ∧ b.toLower = 's' ∧ c.toLower = 'o' ∧ d.toLower = 'n'
  | _ => false

/-- Lookahead: three backticks. -/
def fence3 : List Char → Bool
  | t1 :: t2 :: t3 :: _ => t1.toNat = 96 ∧ t2.toNat = 96 ∧ t3.toNat = 96
  | _ => false

def stripJsonFenceAux : Bool → List Char → List Char
  | _, [] => []
  | skip, x :: rest =>
    if skip ∧ pyWs x then stripJsonFenceAux true rest
    else if fenceJson7 (x :: rest) then stripJsonFenceAux true (rest.drop 6)
    else x :: stripJsonFenceAux false rest
  termination_by _ l => l.length
  decreasing_by all_goals (simp [List.length_drop]; try omega)

def stripJsonFence (l : List Char) : List Char := stripJsonFenceAux false l

/-- Models `re.sub(r"```\s*", "", text)`. -/
def stripTicksAux : Bool → List Char → List Char
  | _, [] => []
  | skip, x :: rest =>
    if skip ∧ pyWs x then stripTicksAux true rest
    else if fence3 (x :: rest) then stripTicksAux true (rest.drop 2)
    else x :: stripTicksAux false rest
  termination_by _ l => l.length
  decreasing_by all_goals (simp [List.length_drop]; try omega)

def stripTicks (l : List Char) : List Char := stripTicksAux false l

/-! Invoice domain (src/invoice_2.py, `parse_invoice_information`). -/

structure LineItem where
  description : String
  amount : ℚ

/-- The normalized invoice record built by lines 161-197.  Pass-through
fields keep whatever decoded value the input held (Python copies them with
no coercion); monetary fields are `Decimal` values, modelled as exact
rationals before the final `convert_decimals` float conversion (a
representation change only). -/
structure InvoiceRecord where
  invoice_number : PyVal
  client : PyVal
  date : PyVal
  payment_terms : PyVal
  industry : PyVal
  total_amount : ℚ
  currency : PyVal
  pending_amount : ℚ
  small_analysis : PyVal
  line_items : List LineItem
  tax_amount : ℚ
  extra_charges : ℚ

/-- Lines 174-181: per item, `item.get("description", "").strip()` (an
`AttributeError` if the item or its description is not of the expected
type), `Decimal(item.get("amount", 0)).quantize(...)`, and the item is
kept only when the stripped description is non-empty. -/
def processItems : List PyVal → Except String (List LineItem)
  | [] => .ok []
  | .dict d :: rest =>
    match dGet d ("description") (.str ("")) with
    | .str s =>
      match pyDecimal (dGet d ("amount") (.int 0)) with
      | .ok amt =>
        match processItems rest with
        | .ok tail =>
          .ok (if stripStr s = "" then tail else ⟨stripStr s, quantize2 amt⟩ :: tail)
        | .error e => .error e
      | .error e => .error e
    | _ => .error ("AttributeError")
  | _ :: _ => .error ("AttributeError")

/-- Line 174: `for item in invoice_data.get("line_items", [])`.  Iterating
a non-list raises (`TypeError`) or feeds non-dict elements into
`item.get` (`AttributeError`); the zero-iteration edge cases of an empty
string or empty dict are not modelled and never exercised. -/
def getItems : PyVal → Except String (List PyVal)
  | .list xs => .ok xs
  | _ => .error ("TypeError")

/-- Lines 161-185: field extraction with defaults and `Decimal(...)
.quantize(Decimal("0.01"))` on the monetary fields, in source order. -/
def normalizeBase (kvs : List (String × PyVal)) : Except String InvoiceRecord := do
  let total ← pyDecimal (dGet kvs ("total_amount") (.int 0))
  let pending ← pyDecimal (dGet kvs ("pending_amount") (.int 0))
  let items ← getItems (dGet kvs ("line_items") (.list []))
  let line_items ← processItems items
  let tax ← pyDecimal (dGet kvs ("tax_amount") (.int 0))
  let extra ← pyDecimal (dGet kvs ("extra_charges") (.int 0))
  pure
    { invoice_number := dGet kvs ("invoice_number") (.str ("Unknown"))
      client := dGet kvs ("client") (.str ("Unknown"))
      date := dGet kvs ("date") (.str ("Unknown"))
      payment_terms := dGet kvs ("payment_terms") (.str ("Not specified"))
      industry := dGet kvs ("industry") (.str ("Not specified"))
      total_amount := quantize2 total
      currency := dGet kvs ("currency") (.str ("Unknown"))
      pending_amount := quantize2 pending
      small_analysis := dGet kvs ("small_analysis") (.str ("N/A"))
      line_items := line_items
      tax_amount := quantize2 tax
      extra_charges := quantize2 extra }

def taxKeywords : List String := [("tax"), ("vat"), ("gst"), ("sales tax")]

def taxKeywordHit (t : String) : Bool := taxKeywords.any (fun w => hasSubStr t w)

/-- Lines 187-197: when both `tax_amount` and `extra_charges` normalized
to 0 and the quantized difference `total − Σ line-item amounts` is
nonzero, scan `json.dumps(invoice_data).lower()` for a tax keyword and
assign the whole difference to `tax_amount` on a hit, else to
`extra_charges`. -/
def applyTaxInference (kvs : List (String × PyVal)) (r : InvoiceRecord) : InvoiceRecord :=
  if r.tax_amount = 0 ∧ r.extra_charges = 0 then
    let diff := quantize2 (r.total_amount - (r.line_items.map LineItem.amount).sum)
    if diff ≠ 0 then
      if taxKeywordHit (lowerStr (pyJsonDumps (.dict kvs))) then
        { r with tax_amount := diff }
      else
        { r with extra_charges := diff }
    else r
  else r

/-- Lines 161-197: the whole normalizer applied to a decoded dict. -/
def normalizeInvoice (kvs : List (String × PyVal)) : Except String InvoiceRecord := do
  let r ← normalizeBase kvs
  pure (applyTaxInference kvs r)

/-- Model of `parse_invoice_information` on text input (the `isinstance(text, dict)`
branch feeds the dict straight into the same normalization, i.e. into
`normalizeInvoice`).  `.ok none` models the empty dict `{}` the function
returns on the no-invoice sentinel, extraction/decode failure, or non-dict
decode; `.error` models an uncaught exception from the normalization
section, which is outside the `try` that guards only `json.loads`. -/
def parse_invoice_information (text : String) : Except String (Option InvoiceRecord) :=
  if hasSubStr (lowerStr text) ("no_invoice_found") then .ok none
  else
    match jsonLoads (invoiceRepair (invoiceExtract text.data)) with
    | none => .ok none
    | some (.dict kvs) => (normalizeInvoice kvs).map some
    | some _ => .ok none

/-! Credit-score domain (src/credit_score.py). -/

structure FactorEntry where
  actual_value : ℚ
  individual_score : ℚ
  weighted_score : ℚ
  weight_percentage : ℤ
  comment : PyVal

structure CreditRecord where
  final_weighted_credit_score : ℚ
  score_category : PyVal
  factor_breakdown : List (String × FactorEntry)
  strengths : PyVal
  weaknesses : PyVal
  risk_assessment : PyVal
  creditworthiness_summary : PyVal
  immediate_actions : PyVal
  long_term_improvements : PyVal
  priority_focus_areas : PyVal

/-- Lines 198-206: one factor entry, with `float`/`int` coercions that
raise on non-numeric values. -/
def mkFactor (fb : PyVal) (name : String) : Except String FactorEntry := do
  let fd ← chainGet fb name (.dict [])
  let av ← pyFloatCoerce (← chainGet fd ("actual_value") (.int 0))
  let iv ← pyFloatCoerce (← chainGet fd ("individual_score") (.int 0))
  let wv ← pyFloatCoerce (← chainGet fd ("weighted_score") (.int 0))
  let wp ← pyIntCoerce (← chainGet fd ("weight_percentage") (.int 0))
  let cm ← chainGet fd ("comment") (.str ("N/A"))
  pure ⟨av, iv, wv, wp, cm⟩

def creditFactors : List String :=
  [("payment_completion_rate"), ("paid_to_pending_ratio"), ("tax_compliance"),
    ("extra_charges_management")]

def mkFactors (fb : PyVal) : List String → Except String (List (String × FactorEntry))
  | [] => .ok []
  | f :: fs =>
    match mkFactor fb f with
    | .ok e =>
      match mkFactors fb fs with
      | .ok tail => .ok ((f, e) :: tail)
      | .error err => .error err
    | .error err => .error err

/-- Model of `validate_credit_response` (lines 169-208).  `.ok none` models the
`{}` returned for non-dict input; `.error` models an uncaught exception
(e.g. `float` of a non-numeric string). -/
def validate_credit_response (data : PyVal) : Except String (Option CreditRecord) :=
  match data with
  | .dict d => do
    let score ← pyFloatCoerce (dGet d ("final_weighted_credit_score") (.int 0))
    let da := dGet d ("detailed_analysis") (.dict [])
    let strengths ← chainGet da ("strengths") (.list [])
    let weaknesses ← chainGet da ("weaknesses") (.list [])
    let risk ← chainGet da ("risk_assessment") (.str ("Unknown"))
    let summary ← chainGet da ("creditworthiness_summary") (.list [])
    let recs := dGet d ("recommendations") (.dict [])
    let ia ← chainGet recs ("immediate_actions") (.list [])
    let lti ← chainGet recs ("long_term_improvements") (.list [])
    let pfa ← chainGet recs ("priority_focus_areas") (.list [])
    let fb := dGet d ("factor_breakdown") (.dict [])
    let factors ← mkFactors fb creditFactors
    pure (some
      { final_weighted_credit_score := score
        score_category := dGet d ("score_category") (.str ("Unknown"))
        factor_breakdown := factors
        strengths := strengths
        weaknesses := weaknesses
        risk_assessment := risk
        creditworthiness_summary := summary
        immediate_actions := ia
        long_term_improvements := lti
        priority_focus_areas := pfa })
  | _ => .ok none

/-- Model of `parse_credit_score_response` (lines 133-166) on text input.  The
`validate_credit_response` call sits inside the `try`, so an exception it
raises is caught and yields `{}` (`none`); the `isinstance(text, dict)`
branch instead calls `validate_credit_response` outside any `try`. -/
def parse_credit_score_response (text : String) : Option CreditRecord :=
  if stripStr text = "" then none
  else
    match jsonLoads (invoiceRepair (creditExtract text.data)) with
    | none => none
    | some v =>
      match validate_credit_response v with
      | .ok r => r
      | .error _ => none

/-! Market domain (src/market.py, `EcommercePlatformAnalyzer`). -/

/-- The table `self.known_platforms` (lines 20-48). -/
def knownPlatforms : List (String × String) :=
  [(("Amazon"), ("https://www.amazon.in")),
   (("Flipkart"), ("https://www.flipkart.com")),
   (("Myntra"), ("https://www.myntra.com")),
   (("Ajio"), ("https://www.ajio.com")),
   (("Meesho"), ("https://www.meesho.com")),
   (("Snapdeal"), ("https://www.snapdeal.com")),
   (("Nykaa"), ("https://www.nykaa.com")),
   (("BigBasket"), ("https://www.bigbasket.com")),
   (("Grofers"), ("https://blinkit.com")),
   (("Paytm Mall"), ("https://paytmmall.com")),
   (("Shopclues"), ("https://www.shopclues.com")),
   (("Tata CLiQ"), ("https://www.tatacliq.com")),
   (("JioMart"), ("https://www.jiomart.com")),
   (("FirstCry"), ("https://www.firstcry.com")),
   (("ONDC Network"), ("https://ondc.org")),
   (("IndiaMART"), ("https://www.indiamart.com")),
   (("TradeIndia"), ("https://www.tradeindia.com")),
   (("Amazon Business"), ("https://business.amazon.in")),
   (("Alibaba India"), ("https://www.alibaba.com/countrysearch/IN")),
   (("Government e-Marketplace (GeM)"), ("https://gem.gov.in")),
   (("Udaan"), ("https://udaan.com")),
   (("ExportersIndia"), ("https://www.exportersindia.com")),
   (("Global Sources"), ("https://www.globalsources.com")),
   (("DHgate"), ("https://www.dhgate.com"))]

/-- Models `self.known_platforms.get(platform, "")`. -/
def knownHomepage (name : String) : String :=
  match knownPlatforms.find? (fun p => p.1 == name) with
  | some p => p.2
  | none => ""

structure PlatformEntry where
  name : String
  homepage : String
  rank : ℤ
  score : ℚ
  reasoning : PyVal
  gst_taxes : PyVal
  other_charges : PyVal
  profit : PyVal
  final_selling_charge : PyVal
  commission_fees : PyVal
  advantages : PyVal
  disadvantages : PyVal
  target_audience_match : PyVal
  category_fit : PyVal
  competition_level : PyVal
  business_model : PyVal
  bulk_order_benefits : PyVal
  verification_standards : PyVal
  recommended_strategy : PyVal

/-- Lines 372-394: the entry built for one discovered platform name from
`info = analysis.get("platform_analysis", {}).get(platform, {})`, with
`int(...)`/`float(...)` coercions on rank and score. -/
def buildEntry (pa : PyVal) (platform : String) : Except String PlatformEntry := do
  let info ← chainGet pa platform (.dict [])
  let rank ← pyIntCoerce (← chainGet info ("rank") (.int 999))
  let score ← pyFloatCoerce (← chainGet info ("score") (.int 0))
  let reasoning ← chainGet info ("reasoning") (.str (""))
  let gst ← chainGet info ("gst_taxes") (.str ("Unknown"))
  let oc ← chainGet info ("other_charges") (.str ("Unknown"))
  let pr ← chainGet info ("profit_analysis") (.str ("Unknown"))
  let fsc ← chainGet info ("final_selling_charge") (.str ("Unknown"))
  let cf ← chainGet info ("commission_fees") (.str ("Unknown"))
  let adv ← chainGet info ("advantages") (.list [])
  let dis ← chainGet info ("disadvantages") (.list [])
  let tam ← chainGet info ("target_audience_match") (.str ("Unknown"))
  let cfit ← chainGet info ("category_fit") (.str ("Unknown"))
  let cl ← chainGet info ("competition_level") (.str ("Unknown"))
  let bm ← chainGet info ("business_model") (.str ("Unknown"))
  let bob ← chainGet info ("bulk_order_benefits") (.str (""))
  let vs ← chainGet info ("verification_standards") (.str (""))
  let rs ← chainGet info ("recommended_strategy") (.str (""))
  pure
    { name := platform, homepage := knownHomepage platform, rank := rank, score := score
      reasoning := reasoning, gst_taxes := gst, other_charges := oc, profit := pr
      final_selling_charge := fsc, commission_fees := cf, advantages := adv
      disadvantages := dis, target_audience_match := tam, category_fit := cfit
      competition_level := cl, business_model := bm, bulk_order_benefits := bob
      verification_standards := vs, recommended_strategy := rs }

/-- The fully-defaulted entry synthesized for a name absent from the
analysis map: sentinel rank 999, score 0, defaults of lines 374-393. -/
def defaultEntry (platform : String) : PlatformEntry :=
  { name := platform, homepage := knownHomepage platform, rank := 999, score := 0
    reasoning := .str (""), gst_taxes := .str ("Unknown"), other_charges := .str ("Unknown")
    profit := .str ("Unknown"), final_selling_charge := .str ("Unknown")
    commission_fees := .str ("Unknown"), advantages := .list [], disadvantages := .list []
    target_audience_match := .str ("Unknown"), category_fit := .str ("Unknown")
    competition_level := .str ("Unknown"), business_model := .str ("Unknown")
    bulk_order_benefits := .str (""), verification_standards := .str ("")
    recommended_strategy := .str ("") }

def buildEntries (pa : PyVal) : List String → Except String (List PlatformEntry)
  | [] => .ok []
  | p :: ps =>
    match buildEntry pa p with
    | .ok e =>
      match buildEntries pa ps with
      | .ok tail => .ok (e :: tail)
      | .error err => .error err
    | .error err => .error err

/-- Stable insertion keyed on `rank`: the inserted element goes before the
first existing element whose rank is not smaller. -/
def insertByRank (x : PlatformEntry) : List PlatformEntry → List PlatformEntry
  | [] => [x]
  | y :: ys => if y.rank < x.rank then y :: insertByRank x ys else x :: y :: ys

/-- Models `platforms_list.sort(key=lambda x: x["rank"])` (line 396): Python's
sort is stable and ascending, which insertion sort with `insertByRank`
reproduces exactly. -/
def sortByRank : List PlatformEntry → List PlatformEntry
  | [] => []
  | x :: xs => insertByRank x (sortByRank xs)

/-- The pure aggregation core of `analyze_product` (lines 370-396): build
one entry per discovered platform name from the analysis map, then
stable-sort by rank. -/
def analyze_product_merge (platforms : List String) (analysis : PyVal) :
    Except String (List PlatformEntry) := do
  let pa ← chainGet analysis ("platform_analysis") (.dict [])
  let es ← buildEntries pa platforms
  pure (sortByRank es)

/-- Model of `parse_platform_analysis` (lines 321-363): strip markdown fences, find
the balanced-brace span from the first `{`, repair, decode.  Every failure
returns the empty dict. -/
def parse_platform_analysis (text : String) : PyVal :=
  if stripStr text = "" then .dict []
  else
    let t := stripTicks (stripJsonFence text.data)
    match extractBalanced t with
    | none => .dict []
    | some span =>
      match jsonLoads (marketRepair span) with
      | some v => v
      | none => .dict []

/-! Policy domain (src/policy_generator.py, `call_groq_for_policy`). -/

/-- The placeholder record substituted once retries are exhausted
(lines 143-147). -/
def placeholderPolicy (ptype : String) : PyVal :=
  .dict [(("policy_type"), .str ptype),
         (("content"), .str ("⚠️ Failed to generate " ++ ptype ++ ". Please retry later."))]

/-- The retry loop of lines 120-147.  `oracle attempt` is the outcome of
the whole guarded body for that attempt (upstream call, emptiness check,
extraction, `json.loads`): `some v` when it returns a parsed record,
`none` when any exception is raised.  The fuel argument is
`maxRetries - attempt`; the loop returns the record together with the
number of attempts made. -/
def policyGo (oracle : ℕ → Option PyVal) (ptype : String) : ℕ → ℕ → PyVal × ℕ
  | attempt, 0 =>
    (match oracle attempt with
     | some v => v
     | none => placeholderPolicy ptype, attempt + 1)
  | attempt, fuel + 1 =>
    match oracle attempt with
    | some v => (v, attempt + 1)
    | none => policyGo oracle ptype (attempt + 1) fuel

/-- Model of `call_groq_for_policy` with configured `max_retries`: runs
`range(max_retries + 1)` attempts, returns the first parsed record, and
after the last failed attempt returns the placeholder record instead of
raising. -/
def call_groq_for_policy (oracle : ℕ → Option PyVal) (ptype : String) (maxRetries : ℕ) :
    PyVal × ℕ :=
  policyGo oracle ptype 0 maxRetries

/-- Is a raw line item kept by the normalizer?  It must be a dict whose
`description` is a string with non-empty strip (missing descriptions
default to the empty string and are dropped). -/
def itemKeptB : PyVal → Bool
  | .dict d =>
    match dGet d ("description") (.str ("")) with
    | .str s => !(stripStr s = "")
    | _ => false
  | _ => false

/-! Concrete example values used by witnesses and counterexamples. -/

/-- The fully-defaulted invoice record produced for a decoded dict whose
keys are all unknown to the schema. -/
def emptyInvoiceRec : InvoiceRecord :=
  { invoice_number := .str ("Unknown"), client := .str ("Unknown"), date := .str ("Unknown")
    payment_terms := .str ("Not specified"), industry := .str ("Not specified")
    total_amount := 0, currency := .str ("Unknown"), pending_amount := 0
    small_analysis := .str ("N/A"), line_items := [], tax_amount := 0, extra_charges := 0 }

/-- Line-items input with one whitespace-only and one kept description. -/
def itemsExample : List PyVal :=
  [.dict [(("description"), .str ("  "))], .dict [(("description"), .str ("x"))]]

def itemsKvsExample : List (String × PyVal) := [(("line_items"), .list itemsExample)]

def itemsRecExample : InvoiceRecord :=
  { emptyInvoiceRec with line_items := [⟨("x"), 0⟩] }

/-- The spec's tax-inference example: total 1000, one 900 line item, and a
serialized text containing "VAT". -/
def taxKvsExample : List (String × PyVal) :=
  [(("total_amount"), .int 1000),
   (("line_items"), .list [.dict [(("description"), .str ("Goods")), (("amount"), .int 900)]]),
   (("small_analysis"), .str ("Includes VAT"))]

def taxBaseExample : InvoiceRecord :=
  { emptyInvoiceRec with
    total_amount := 1000
    small_analysis := .str ("Includes VAT")
    line_items := [⟨("Goods"), 900⟩] }

def taxRecExample : InvoiceRecord := { taxBaseExample with tax_amount := 100 }

/-- The record produced for `{"pending_amount": "1.005"}`: the stored
pending amount is 1.00 (banker's rounding), not the 1.01 of round-half-up. -/
def pendingRecExample : InvoiceRecord := { emptyInvoiceRec with pending_amount := 1 }

/-! Lemmas about the repair step. -/

theorem decomma_of_no_trailing (l : List Char) (h : hasTrailingComma l = false) :
    decomma l = l := by
  induction l with
  | nil => rfl
  | cons c rest ih =>
    simp only [hasTrailingComma, Bool.or_eq_false_iff] at h
    simp only [decomma, h.1, ih h.2]
    simp

theorem collapseAux_no_newline (l : List Char) : ∀ skip, '\n' ∉ collapseAux skip l := by
  induction l with
  | nil => intro skip; simp [collapseAux]
  | cons c rest ih =>
    intro skip
    simp only [collapseAux]
    split
    · exact ih true
    · split
      · intro hmem
        rcases List.mem_cons.mp hmem with h | h
        · exact absurd h (by decide)
        · exact ih true h
      · next hno =>
        intro hmem
        rcases List.mem_cons.mp hmem with h | h
        · exact hno (h ▸ rfl)
        · exact ih false h

theorem collapseAux_of_no_newline (l : List Char) (h : '\n' ∉ l) :
    collapseAux false l = l := by
  induction l with
  | nil => rfl
  | cons c rest ih =>
    simp only [List.mem_cons, not_or] at h
    have hc : ¬ (c = '\n') := fun hh => h.1 (hh ▸ rfl)
    simp only [collapseAux]
    rw [if_neg (by simp), if_neg hc, ih h.2]

/-- Claim C4 (amended): the syntax repair is idempotent on every input
whose once-repaired text contains no remaining trailing-comma occurrence;
the counterexample below shows this restriction is necessary, so the
repair is not idempotent on all strings. -/
theorem C4_repair_idempotent_when_stable (s1 s2 : List Char)
    (h1 : hasTrailingComma (invoiceRepair s1) = false)
    (h2 : hasTrailingComma (marketRepair s2) = false) :
    invoiceRepair (invoiceRepair s1) = invoiceRepair s1 ∧
      marketRepair (marketRepair s2) = marketRepair s2 := by
  constructor
  · exact decomma_of_no_trailing _ h1
  · show collapseWs (decomma (marketRepair s2)) = marketRepair s2
    rw [decomma_of_no_trailing _ h2]
    exact collapseAux_of_no_newline _ (collapseAux_no_newline _ false)

/-- Claim C4 (counterexample): on `",,}"` one application of the repair
yields `",}"` and a second yields `"}"`, for both the invoice/credit
variant and the market variant, so the transformation is not idempotent. -/
theorem C4_counterexample :
    invoiceRepair (invoiceRepair (",,\x7d".data)) ≠ invoiceRepair (",,\x7d".data) ∧
      marketRepair (marketRepair (",,\x7d".data)) ≠ marketRepair (",,\x7d".data) := by
  decide

/-- Claim C4 (witness): a concrete input on which the amended idempotence
theorem applies. -/
theorem C4_witness :
    invoiceRepair (invoiceRepair (",\x7d".data)) = invoiceRepair (",\x7d".data) ∧
      marketRepair (marketRepair ("a,\n \x7d".data)) = marketRepair ("a,\n \x7d".data) :=
  C4_repair_idempotent_when_stable (",\x7d".data) ("a,\n \x7d".data) (by decide) (by decide)

/-! Lemmas about the policy retry loop. -/

theorem policyGo_attempts_le (oracle : ℕ → Option PyVal) (ptype : String) :
    ∀ fuel attempt, (policyGo oracle ptype attempt fuel).2 ≤ attempt + fuel + 1 := by
  intro fuel
  induction fuel with
  | zero =>
    intro attempt
    exact le_refl _
  | succ f ih =>
    intro attempt
    cases h0 : oracle attempt with
    | none =>
      have heq : policyGo oracle ptype attempt (f + 1) = policyGo oracle ptype (attempt + 1) f := by
        simp [policyGo, h0]
      rw [heq]
      have := ih (attempt + 1)
      omega
    | some v =>
      have heq : policyGo oracle ptype attempt (f + 1) = (v, attempt + 1) := by
        simp [policyGo, h0]
      rw [heq]
      simp


theorem policyGo_all_fail (oracle : ℕ → Option PyVal) (ptype : String) :
    ∀ fuel attempt, (∀ k, attempt ≤ k → k ≤ attempt + fuel → oracle k = none) →
      policyGo oracle ptype attempt fuel = (placeholderPolicy ptype, attempt + fuel + 1) := by
  intro fuel
  induction fuel with
  | zero =>
    intro attempt h
    have h0 := h attempt (le_refl _) (by omega)
    simp [policyGo, h0]
  | succ f ih =>
    intro attempt h
    have h0 := h attempt (le_refl _) (by omega)
    simp only [policyGo, h0]
    have := ih (attempt + 1) (fun k hk1 hk2 => h k (by omega) (by omega))
    rw [this]
    congr 1
    omega

theorem policyGo_first_success (oracle : ℕ → Option PyVal) (ptype : String) :
    ∀ fuel attempt k v, attempt ≤ k → k ≤ attempt + fuel → oracle k = some v →
      (∀ j, attempt ≤ j → j < k → oracle j = none) →
      policyGo oracle ptype attempt fuel = (v, k + 1) := by
  intro fuel
  induction fuel with
  | zero =>
    intro attempt k v h1 h2 h3 _
    have hk : k = attempt := by omega
    subst hk
    simp [policyGo, h3]
  | succ f ih =>
    intro attempt k v h1 h2 h3 h4
    by_cases hk : k = attempt
    · subst hk
      simp [policyGo, h3]
    · have h0 : oracle attempt = none := h4 attempt (le_refl _) (by omega)
      simp only [policyGo, h0]
      exact ih (attempt + 1) k v (by omega) (by omega) h3
        (fun j hj1 hj2 => h4 j (by omega) hj2)

/-- Claim C9: with configured retry maximum `N` (the code's default is
`N = 2`), policy generation consults the upstream oracle in at most `N + 1`
attempts; if every one of those attempts fails it returns the placeholder
record `{"policy_type": ptype, "content": <failure placeholder>}` without
raising, and if some attempt succeeds first at index `k` it returns that
attempt's parsed record after exactly `k + 1` attempts. -/
theorem C9_bounded_retry (oracle : ℕ → Option PyVal) (ptype : String) (N : ℕ) :
    (call_groq_for_policy oracle ptype N).2 ≤ N + 1 ∧
      ((∀ k, k ≤ N → oracle k = none) →
        call_groq_for_policy oracle ptype N = (placeholderPolicy ptype, N + 1)) ∧
      (∀ k v, k ≤ N → oracle k = some v → (∀ j, j < k → oracle j = none) →
        call_groq_for_policy oracle ptype N = (v, k + 1)) := by
  refine ⟨?_, ?_, ?_⟩
  · simpa using policyGo_attempts_le oracle ptype N 0
  · intro h
    simpa using policyGo_all_fail oracle ptype N 0 (fun k _ hk2 => h k (by omega))
  · intro k v hk hv hprev
    exact policyGo_first_success oracle ptype N 0 k v (by omega) (by omega) hv
      (fun j _ hj => hprev j hj)

/-- Claim C9 (witness): with the default `N = 2` and an oracle that fails
on attempt 0 and succeeds on attempt 1, the loop returns attempt 1's
record after exactly 2 attempts. -/
theorem C9_witness :
    call_groq_for_policy (fun k => if k = 1 then some (.dict []) else none)
      ("privacy_policy") 2 = (.dict [], 2) := by
  refine (C9_bounded_retry (fun k => if k = 1 then some (.dict []) else none)
    ("privacy_policy") 2).2.2 1 (.dict []) (by omega) (by simp) ?_
  intro j hj
  have : j = 0 := by omega
  subst this
  simp


/-! Lemmas about the ranking aggregator. -/

theorem insertByRank_perm (x : PlatformEntry) (l : List PlatformEntry) :
    (insertByRank x l).Perm (x :: l) := by
  induction l with
  | nil => exact List.Perm.refl _
  | cons y ys ih =>
    simp only [insertByRank]
    split
    · exact ((ih.cons y).trans (List.Perm.swap x y ys))
    · exact List.Perm.refl _

theorem sortByRank_perm (l : List PlatformEntry) : (sortByRank l).Perm l := by
  induction l with
  | nil => exact List.Perm.refl _
  | cons x xs ih =>
    exact (insertByRank_perm x (sortByRank xs)).trans (ih.cons x)

theorem mem_insertByRank {a x : PlatformEntry} {l : List PlatformEntry} :
    a ∈ insertByRank x l ↔ a = x ∨ a ∈ l := by
  rw [(insertByRank_perm x l).mem_iff]
  simp

theorem filter_insertByRank (x : PlatformEntry) (l : List PlatformEntry) (r : ℤ) :
    (insertByRank x l).filter (fun e => decide (e.rank = r)) =
      if x.rank = r then x :: l.filter (fun e => decide (e.rank = r))
      else l.filter (fun e => decide (e.rank = r)) := by
  induction l with
  | nil =>
    by_cases hx : x.rank = r <;> simp [insertByRank, List.filter, hx]
  | cons y ys ih =>
    by_cases hyx : y.rank < x.rank
    · have hstep : insertByRank x (y :: ys) = y :: insertByRank x ys := by
        simp [insertByRank, hyx]
      rw [hstep]
      by_cases hx : x.rank = r
      · have hy : ¬ (y.rank = r) := by omega
        simp [List.filter_cons, ih, hx, hy]
      · rw [List.filter_cons, ih]
        by_cases hy : y.rank = r <;> simp [hy, hx]
    · have hstep : insertByRank x (y :: ys) = x :: y :: ys := by
        simp [insertByRank, hyx]
      rw [hstep]
      by_cases hx : x.rank = r <;> simp [List.filter_cons, hx]

theorem sortByRank_filter (l : List PlatformEntry) (r : ℤ) :
    (sortByRank l).filter (fun e => decide (e.rank = r)) =
      l.filter (fun e => decide (e.rank = r)) := by
  induction l with
  | nil => rfl
  | cons x xs ih =>
    simp only [sortByRank, filter_insertByRank, ih]
    by_cases hx : x.rank = r <;> simp [List.filter_cons, hx]

theorem sorted_insertByRank (x : PlatformEntry) (l : List PlatformEntry)
    (h : l.Pairwise (fun a b => a.rank ≤ b.rank)) :
    (insertByRank x l).Pairwise (fun a b => a.rank ≤ b.rank) := by
  induction l with
  | nil => simp [insertByRank]
  | cons y ys ih =>
    rw [List.pairwise_cons] at h
    obtain ⟨hy, hys⟩ := h
    by_cases hlt : y.rank < x.rank
    · simp only [insertByRank, if_pos hlt]
      refine List.pairwise_cons.mpr ⟨?_, ih hys⟩
      intro a ha
      rcases mem_insertByRank.mp ha with rfl | ha
      · show y.rank ≤ a.rank
        omega
      · exact hy a ha
    · simp only [insertByRank, if_neg hlt]
      refine List.pairwise_cons.mpr ⟨?_, List.pairwise_cons.mpr ⟨hy, hys⟩⟩
      intro a ha
      rcases List.mem_cons.mp ha with rfl | ha
      · show x.rank ≤ a.rank
        omega
      · have := hy a ha
        show x.rank ≤ a.rank
        omega

theorem sortByRank_sorted (l : List PlatformEntry) :
    (sortByRank l).Pairwise (fun a b => a.rank ≤ b.rank) := by
  induction l with
  | nil => simp [sortByRank]
  | cons x xs ih => exact sorted_insertByRank x (sortByRank xs) ih

theorem buildEntries_ok_length (pa : PyVal) :
    ∀ ps es, buildEntries pa ps = .ok es → es.length = ps.length := by
  intro ps
  induction ps with
  | nil =>
    intro es h
    simp only [buildEntries, Except.ok.injEq] at h
    subst h
    rfl
  | cons p ps ih =>
    intro es h
    simp only [buildEntries] at h
    cases hb : buildEntry pa p with
    | error e => rw [hb] at h; simp at h
    | ok e =>
      rw [hb] at h
      cases ht : buildEntries pa ps with
      | error e2 => rw [ht] at h; simp at h
      | ok tail =>
        rw [ht] at h
        simp only [Except.ok.injEq] at h
        subst h
        simp [ih tail ht]

theorem buildEntries_ok_mem (pa : PyVal) :
    ∀ ps es p, buildEntries pa ps = .ok es → p ∈ ps →
      ∃ e, e ∈ es ∧ buildEntry pa p = .ok e := by
  intro ps
  induction ps with
  | nil => intro es p _ hp; exact absurd hp (by simp)
  | cons q ps ih =>
    intro es p h hp
    simp only [buildEntries] at h
    cases hb : buildEntry pa q with
    | error e => rw [hb] at h; simp at h
    | ok e =>
      rw [hb] at h
      cases ht : buildEntries pa ps with
      | error e2 => rw [ht] at h; simp at h
      | ok tail =>
        rw [ht] at h
        simp only [Except.ok.injEq] at h
        subst h
        rcases List.mem_cons.mp hp with rfl | hp
        · exact ⟨e, by simp, hb⟩
        · rcases ih tail p ht hp with ⟨e2, he2, hbe⟩
          exact ⟨e2, by simp [he2], hbe⟩

theorem buildEntry_absent (kvs : List (String × PyVal)) (name : String)
    (habs : kvs.reverse.find? (fun q => q.1 == name) = none) :
    buildEntry (.dict kvs) name = .ok (defaultEntry name) := by
  have hget : dGet kvs name (.dict []) = .dict [] := by
    simp [dGet, habs]
  simp only [buildEntry, chainGet, hget]
  rfl


/-! Small `Except` computation rules used to invert the monadic models. -/

theorem exceptBind_ok {ε α β : Type} (a : α) (f : α → Except ε β) :
    (Except.ok a >>= f) = f a := rfl

theorem exceptBind_error {ε α β : Type} (e : ε) (f : α → Except ε β) :
    ((Except.error e : Except ε α) >>= f) = .error e := rfl

theorem exceptPure {ε α : Type} (a : α) : (pure a : Except ε α) = .ok a := rfl

theorem exceptMap_ok {ε α β : Type} (f : α → β) (a : α) :
    (Except.map f (.ok a) : Except ε β) = .ok (f a) := rfl

/-- Claim C6: the ranking aggregator's sort is a stable ascending sort by
rank: for every rank value, the entries carrying it keep their original
discovery order; the output is sorted by rank; and on discovered names
`["A", "B", "C"]` where only `"B"` has an analysis entry (rank 2), the
output order is `[B, A, C]`. -/
theorem C6_stable_rank_sort (l : List PlatformEntry) (r : ℤ) :
    (sortByRank l).filter (fun e => decide (e.rank = r)) =
        l.filter (fun e => decide (e.rank = r)) ∧
      (sortByRank l).Pairwise (fun a b => a.rank ≤ b.rank) ∧
      (analyze_product_merge [("A"), ("B"), ("C")]
          (.dict [(("platform_analysis"),
            .dict [(("B"), .dict [(("rank"), .int 2)])])])).map
          (List.map PlatformEntry.name) =
        .ok [("B"), ("A"), ("C")] :=
  ⟨sortByRank_filter l r, sortByRank_sorted l, rfl⟩

/-- Claim C7: the ranking aggregator drops no entity (output length equals
the discovered-name list length), and every discovered name absent from
the analysis map (exact, case-sensitive lookup) yields the synthesized
entry with sentinel rank 999, score 0 and all descriptive defaults. -/
theorem C7_no_entity_dropped (platforms : List String) (analysis pa : PyVal)
    (out : List PlatformEntry) (name : String) (kvs : List (String × PyVal))
    (h : analyze_product_merge platforms analysis = .ok out)
    (hn : name ∈ platforms)
    (hpa : chainGet analysis ("platform_analysis") (.dict []) = .ok pa)
    (hd : pa = .dict kvs)
    (habs : kvs.reverse.find? (fun q => q.1 == name) = none) :
    out.length = platforms.length ∧ defaultEntry name ∈ out := by
  subst hd
  simp only [analyze_product_merge, hpa, exceptBind_ok] at h
  cases hbe : buildEntries (.dict kvs) platforms with
  | error e =>
    rw [hbe, exceptBind_error] at h
    simp at h
  | ok es =>
    rw [hbe, exceptBind_ok, exceptPure, Except.ok.injEq] at h
    subst h
    constructor
    · rw [(sortByRank_perm es).length_eq, buildEntries_ok_length _ _ _ hbe]
    · rcases buildEntries_ok_mem _ _ _ name hbe hn with ⟨e, he, hbe1⟩
      have h2 := buildEntry_absent kvs name habs
      rw [hbe1, Except.ok.injEq] at h2
      subst h2
      exact ((sortByRank_perm es).mem_iff).mpr he

/-- Claim C7 (witness): one discovered name and an empty analysis map. -/
theorem C7_witness :
    ([defaultEntry ("A")].length = [("A")].length ∧
      defaultEntry ("A") ∈ [defaultEntry ("A")]) :=
  C7_no_entity_dropped [("A")] (.dict []) (.dict []) [defaultEntry ("A")] ("A") []
    rfl (by simp) rfl rfl rfl


/-! Quantization and strip lemmas. -/

theorem roundHalfEven_intCast (n : ℤ) : roundHalfEven (n : ℚ) = n := by
  simp only [roundHalfEven, Int.floor_intCast, sub_self]
  norm_num

theorem quantize2_intCast (n : ℤ) : quantize2 (n : ℚ) = n := by
  have h : ((n : ℚ) * 100) = ((n * 100 : ℤ) : ℚ) := by push_cast; ring
  rw [quantize2, h, roundHalfEven_intCast]
  push_cast
  field_simp

theorem quantize2_idem (q : ℚ) : quantize2 (quantize2 q) = quantize2 q := by
  unfold quantize2
  rw [div_mul_cancel₀ _ (by norm_num : (100 : ℚ) ≠ 0), roundHalfEven_intCast]

theorem stripL_dropWhile (l : List Char) : (stripL l).dropWhile pyWs = stripL l := by
  set l1 := l.dropWhile pyWs with hl1
  set l2 := l1.reverse.dropWhile pyWs with hl2
  have hdecomp : l1 = l2.reverse ++ (l1.reverse.takeWhile pyWs).reverse := by
    calc l1 = l1.reverse.reverse := (List.reverse_reverse l1).symm
    _ = (l1.reverse.takeWhile pyWs ++ l1.reverse.dropWhile pyWs).reverse := by
        rw [List.takeWhile_append_dropWhile]
    _ = l2.reverse ++ (l1.reverse.takeWhile pyWs).reverse := by
        rw [List.reverse_append, hl2]
  show l2.reverse.dropWhile pyWs = l2.reverse
  rw [List.dropWhile_eq_self_iff]
  intro hl
  have hlen1 : 0 < l1.length := by
    conv_lhs => rw [show (0:ℕ) = 0 from rfl]
    rw [hdecomp, List.length_append]
    omega
  have hgetq : l1[0]? = l2.reverse[0]? := by
    conv_lhs => rw [hdecomp]
    exact List.getElem?_append_left hl
  have hget : l2.reverse.get ⟨0, hl⟩ = l1.get ⟨0, hlen1⟩ := by
    have e1 : l1[0]? = some l1[0] := List.getElem?_eq_getElem hlen1
    have e2 : l2.reverse[0]? = some l2.reverse[0] := List.getElem?_eq_getElem hl
    rw [e1, e2] at hgetq
    simpa using hgetq.symm
  rw [hget]
  exact List.dropWhile_get_zero_not _ _ hlen1

theorem stripL_idem (l : List Char) : stripL (stripL l) = stripL l := by
  have h2 : (stripL l).reverse.dropWhile pyWs = (stripL l).reverse := by
    unfold stripL
    rw [List.reverse_reverse]
    exact List.dropWhile_idempotent _ _
  show ((stripL l |>.dropWhile pyWs).reverse.dropWhile pyWs).reverse = stripL l
  rw [stripL_dropWhile, h2, List.reverse_reverse]

theorem stripStr_idem (s : String) : stripStr (stripStr s) = stripStr s := by
  show String.mk (stripL (stripL s.data)) = String.mk (stripL s.data)
  rw [stripL_idem]


/-! Inversion lemmas for the invoice normalizer. -/

theorem processItems_spec :
    ∀ xs lis, processItems xs = .ok lis →
      (∀ it, it ∈ lis →
        (∃ src, it.description = stripStr src) ∧ it.description ≠ "" ∧
          ∃ q, it.amount = quantize2 q) ∧
      lis.length = xs.countP itemKeptB := by
  intro xs
  induction xs with
  | nil =>
    intro lis h
    simp only [processItems, Except.ok.injEq] at h
    subst h
    exact ⟨fun it hit => absurd hit (by simp), by simp⟩
  | cons item rest ih =>
    intro lis h
    cases item with
    | dict d =>
      simp only [processItems] at h
      cases hdg : dGet d ("description") (.str ("")) with
      | str src =>
        rw [hdg] at h
        cases hamt : pyDecimal (dGet d ("amount") (.int 0)) with
        | error e => rw [hamt] at h; simp at h
        | ok amt =>
          rw [hamt] at h
          cases htail : processItems rest with
          | error e => rw [htail] at h; simp at h
          | ok tail =>
            rw [htail] at h
            simp only [Except.ok.injEq] at h
            rcases ih tail htail with ⟨hmem, hlen⟩
            have hkept : itemKeptB (.dict d) = !(stripStr src = "") := by
              simp [itemKeptB, hdg]
            by_cases hs : stripStr src = ""
            · rw [if_pos hs] at h
              subst h
              refine ⟨hmem, ?_⟩
              rw [List.countP_cons, hkept, hs]
              simp [hlen]
            · rw [if_neg hs] at h
              subst h
              constructor
              · intro it hit
                rcases List.mem_cons.mp hit with rfl | hit
                · exact ⟨⟨src, rfl⟩, hs, amt, rfl⟩
                · exact hmem it hit
              · rw [List.countP_cons, hkept]
                simp [hs, hlen]
      | dict d2 => rw [hdg] at h; simp at h
      | null => rw [hdg] at h; simp at h
      | bool b => rw [hdg] at h; simp at h
      | int n => rw [hdg] at h; simp at h
      | float q => rw [hdg] at h; simp at h
      | list xs2 => rw [hdg] at h; simp at h
    | null => simp [processItems] at h
    | bool b => simp [processItems] at h
    | int n => simp [processItems] at h
    | float q => simp [processItems] at h
    | str s2 => simp [processItems] at h
    | list xs2 => simp [processItems] at h

theorem normalizeBase_ok_inv (kvs : List (String × PyVal)) (r : InvoiceRecord)
    (h : normalizeBase kvs = .ok r) :
    ∃ total pending items lis tax extra,
      pyDecimal (dGet kvs ("total_amount") (.int 0)) = .ok total ∧
      pyDecimal (dGet kvs ("pending_amount") (.int 0)) = .ok pending ∧
      getItems (dGet kvs ("line_items") (.list [])) = .ok items ∧
      processItems items = .ok lis ∧
      pyDecimal (dGet kvs ("tax_amount") (.int 0)) = .ok tax ∧
      pyDecimal (dGet kvs ("extra_charges") (.int 0)) = .ok extra ∧
      r = { invoice_number := dGet kvs ("invoice_number") (.str ("Unknown"))
            client := dGet kvs ("client") (.str ("Unknown"))
            date := dGet kvs ("date") (.str ("Unknown"))
            payment_terms := dGet kvs ("payment_terms") (.str ("Not specified"))
            industry := dGet kvs ("industry") (.str ("Not specified"))
            total_amount := quantize2 total
            currency := dGet kvs ("currency") (.str ("Unknown"))
            pending_amount := quantize2 pending
            small_analysis := dGet kvs ("small_analysis") (.str ("N/A"))
            line_items := lis
            tax_amount := quantize2 tax
            extra_charges := quantize2 extra } := by
  unfold normalizeBase at h
  cases h1 : pyDecimal (dGet kvs ("total_amount") (.int 0)) with
  | error e => rw [h1, exceptBind_error] at h; simp at h
  | ok total =>
    rw [h1, exceptBind_ok] at h
    cases h2 : pyDecimal (dGet kvs ("pending_amount") (.int 0)) with
    | error e => rw [h2, exceptBind_error] at h; simp at h
    | ok pending =>
      rw [h2, exceptBind_ok] at h
      cases h3 : getItems (dGet kvs ("line_items") (.list [])) with
      | error e => rw [h3, exceptBind_error] at h; simp at h
      | ok items =>
        rw [h3, exceptBind_ok] at h
        cases h4 : processItems items with
        | error e => rw [h4, exceptBind_error] at h; simp at h
        | ok lis =>
          rw [h4, exceptBind_ok] at h
          cases h5 : pyDecimal (dGet kvs ("tax_amount") (.int 0)) with
          | error e => rw [h5, exceptBind_error] at h; simp at h
          | ok tax =>
            rw [h5, exceptBind_ok] at h
            cases h6 : pyDecimal (dGet kvs ("extra_charges") (.int 0)) with
            | error e => rw [h6, exceptBind_error] at h; simp at h
            | ok extra =>
              rw [h6, exceptBind_ok, exceptPure, Except.ok.injEq] at h
              exact ⟨total, pending, items, lis, tax, extra, rfl, rfl, rfl, h4, rfl, rfl,
                h.symm⟩

theorem normalizeInvoice_ok_inv (kvs : List (String × PyVal)) (r : InvoiceRecord)
    (h : normalizeInvoice kvs = .ok r) :
    ∃ rb, normalizeBase kvs = .ok rb ∧ r = applyTaxInference kvs rb := by
  unfold normalizeInvoice at h
  cases hb : normalizeBase kvs with
  | error e => rw [hb, exceptBind_error] at h; simp at h
  | ok rb =>
    rw [hb, exceptBind_ok, exceptPure, Except.ok.injEq] at h
    exact ⟨rb, rfl, h.symm⟩

theorem applyTaxInference_preserves (kvs : List (String × PyVal)) (rb : InvoiceRecord) :
    (applyTaxInference kvs rb).total_amount = rb.total_amount ∧
      (applyTaxInference kvs rb).pending_amount = rb.pending_amount ∧
      (applyTaxInference kvs rb).line_items = rb.line_items := by
  simp only [applyTaxInference]
  split_ifs <;> simp

theorem applyTaxInference_quantized (kvs : List (String × PyVal)) (rb : InvoiceRecord)
    (h1 : quantize2 rb.tax_amount = rb.tax_amount)
    (h2 : quantize2 rb.extra_charges = rb.extra_charges) :
    quantize2 (applyTaxInference kvs rb).tax_amount = (applyTaxInference kvs rb).tax_amount ∧
      quantize2 (applyTaxInference kvs rb).extra_charges =
        (applyTaxInference kvs rb).extra_charges := by
  simp only [applyTaxInference]
  split_ifs <;> simp [h1, h2, quantize2_idem]


theorem quantize2_zero : quantize2 0 = 0 := by
  simpa using quantize2_intCast 0

/-- Claim C10: in every normalized invoice record, each line item's
description is already stripped and non-empty; items whose description is
missing, empty or whitespace-only are silently omitted, so the output
count is the number of kept input items and never exceeds the input
count. -/
theorem C10_line_item_descriptions (kvs : List (String × PyVal)) (r : InvoiceRecord)
    (xs : List PyVal)
    (h : normalizeInvoice kvs = .ok r)
    (hxs : dGet kvs ("line_items") (.list []) = .list xs) :
    (∀ it, it ∈ r.line_items → stripStr it.description = it.description ∧ it.description ≠ "") ∧
      r.line_items.length = xs.countP itemKeptB ∧ r.line_items.length ≤ xs.length := by
  rcases normalizeInvoice_ok_inv kvs r h with ⟨rb, hb, hr⟩
  rcases normalizeBase_ok_inv kvs rb hb with
    ⟨total, pending, items, lis, tax, extra, _, _, h3, h4, _, _, hrb⟩
  rw [hxs] at h3
  have hitems : items = xs := by simpa [getItems] using h3.symm
  subst hitems
  have hline : r.line_items = lis := by
    rw [hr, (applyTaxInference_preserves kvs rb).2.2, hrb]
  rcases processItems_spec items lis h4 with ⟨hmem, hlen⟩
  refine ⟨?_, ?_, ?_⟩
  · intro it hit
    rw [hline] at hit
    rcases hmem it hit with ⟨⟨src, hsrc⟩, hne, _⟩
    exact ⟨by rw [hsrc, stripStr_idem], hne⟩
  · rw [hline, hlen]
  · rw [hline, hlen]
    exact List.countP_le_length _

theorem normalizeBase_items : normalizeBase itemsKvsExample = .ok itemsRecExample := by
  simp +decide [normalizeBase, itemsKvsExample, itemsExample, itemsRecExample,
    emptyInvoiceRec, dGet, pyDecimal, getItems, processItems, quantize2_zero,
    exceptBind_ok, exceptPure]

theorem applyTax_items : applyTaxInference itemsKvsExample itemsRecExample = itemsRecExample := by
  simp [applyTaxInference, itemsRecExample, emptyInvoiceRec, quantize2_zero]

theorem normalizeInvoice_items : normalizeInvoice itemsKvsExample = .ok itemsRecExample := by
  unfold normalizeInvoice
  rw [normalizeBase_items, exceptBind_ok, exceptPure, applyTax_items]

/-- Claim C10 (witness): of two input items, the whitespace-only
description is dropped and only `"x"` survives, so the output has 1 item
against 2 in the input. -/
theorem C10_witness :
    (∀ it, it ∈ itemsRecExample.line_items →
        stripStr it.description = it.description ∧ it.description ≠ "") ∧
      itemsRecExample.line_items.length = itemsExample.countP itemKeptB ∧
      itemsRecExample.line_items.length ≤ itemsExample.length :=
  C10_line_item_descriptions itemsKvsExample itemsRecExample itemsExample
    normalizeInvoice_items rfl


/-- Claim C3 (amended): every monetary amount accepted during invoice
normalization is quantized to 2 decimal places under round-half-EVEN (the
`Decimal` default context), not round-half-up: `total_amount` and
`pending_amount` equal the coerced input so quantized, every stored
line-item amount is a fixed point of that quantization, and so are the
final `tax_amount` and `extra_charges` (which the inference step may have
overwritten with the equally-quantized difference). -/
theorem C3_amounts_quantized_half_even (kvs : List (String × PyVal)) (r : InvoiceRecord)
    (total pending : ℚ)
    (h : normalizeInvoice kvs = .ok r)
    (ht : pyDecimal (dGet kvs ("total_amount") (.int 0)) = .ok total)
    (hp : pyDecimal (dGet kvs ("pending_amount") (.int 0)) = .ok pending) :
    r.total_amount = quantize2 total ∧ r.pending_amount = quantize2 pending ∧
      (∀ it, it ∈ r.line_items → quantize2 it.amount = it.amount) ∧
      quantize2 r.tax_amount = r.tax_amount ∧
      quantize2 r.extra_charges = r.extra_charges := by
  rcases normalizeInvoice_ok_inv kvs r h with ⟨rb, hb, hr⟩
  rcases normalizeBase_ok_inv kvs rb hb with
    ⟨t2, p2, items, lis, tax, extra, h1, h2, h3, h4, h5, h6, hrb⟩
  rw [ht] at h1
  rw [hp] at h2
  have et : total = t2 := by simpa using h1
  have ep : pending = p2 := by simpa using h2
  subst et
  subst ep
  have hpres := applyTaxInference_preserves kvs rb
  have hquant := applyTaxInference_quantized kvs rb
    (by rw [hrb]; exact quantize2_idem tax)
    (by rw [hrb]; exact quantize2_idem extra)
  refine ⟨?_, ?_, ?_, ?_, ?_⟩
  · rw [hr, hpres.1, hrb]
  · rw [hr, hpres.2.1, hrb]
  · intro it hit
    rw [hr, hpres.2.2, hrb] at hit
    rcases (processItems_spec items lis h4).1 it hit with ⟨_, _, q, hq⟩
    rw [hq, quantize2_idem]
  · rw [hr]
    exact hquant.1
  · rw [hr]
    exact hquant.2

theorem parseNum_1005 : parseNumStr (['1', '.', '0', '0', '5']) = some (201 / 200) := by
  simp +decide [parseNumStr, List.takeWhile, List.dropWhile, isDig, pyWs, natOfDigits]
  norm_num

theorem quantize2_1005 : quantize2 (201 / 200) = 1 := by
  norm_num [quantize2, roundHalfEven]

theorem normalizeBase_pending :
    normalizeBase [(("pending_amount"), .str ("1.005"))] = .ok pendingRecExample := by
  simp +decide [normalizeBase, pendingRecExample, emptyInvoiceRec, dGet, pyDecimal,
    getItems, processItems, quantize2_zero, parseNum_1005, quantize2_1005,
    exceptBind_ok, exceptPure]

theorem applyTax_pending :
    applyTaxInference [(("pending_amount"), .str ("1.005"))] pendingRecExample =
      pendingRecExample := by
  simp [applyTaxInference, pendingRecExample, emptyInvoiceRec, quantize2_zero]

theorem normalizeInvoice_pending :
    normalizeInvoice [(("pending_amount"), .str ("1.005"))] = .ok pendingRecExample := by
  unfold normalizeInvoice
  rw [normalizeBase_pending, exceptBind_ok, exceptPure, applyTax_pending]

/-- Claim C3 (counterexample): on input `{"pending_amount": "1.005"}` the
stored pending amount is 1.00 — the round-half-even result — whereas
quantization under the spec's round-half-up rule would store 1.01, so the
claim's rounding rule is false on the code. -/
theorem C3_counterexample :
    normalizeInvoice [(("pending_amount"), .str ("1.005"))] = .ok pendingRecExample ∧
      pendingRecExample.pending_amount = 1 ∧
      quantize2HalfUpSpec (201 / 200) = 101 / 100 ∧
      pendingRecExample.pending_amount ≠ quantize2HalfUpSpec (201 / 200) := by
  refine ⟨normalizeInvoice_pending, rfl, ?_, ?_⟩
  · norm_num [quantize2HalfUpSpec, roundHalfUpSpec]
  · norm_num [quantize2HalfUpSpec, roundHalfUpSpec, pendingRecExample, emptyInvoiceRec]

/-- Claim C3 (witness): the amended half-even statement applied to the
`{"pending_amount": "1.005"}` input. -/
theorem C3_witness :
    pendingRecExample.total_amount = quantize2 0 ∧
      pendingRecExample.pending_amount = quantize2 (201 / 200) ∧
      (∀ it, it ∈ pendingRecExample.line_items → quantize2 it.amount = it.amount) ∧
      quantize2 pendingRecExample.tax_amount = pendingRecExample.tax_amount ∧
      quantize2 pendingRecExample.extra_charges = pendingRecExample.extra_charges :=
  C3_amounts_quantized_half_even [(("pending_amount"), .str ("1.005"))]
    pendingRecExample 0 (201 / 200) normalizeInvoice_pending
    (by simp +decide [dGet, pyDecimal])
    (by simp +decide [dGet, pyDecimal, parseNum_1005])

/-- Claim C2 (amended): a numeric coercion failure is not absorbed
per-field.  In the invoice normalizer a non-coercible `total_amount`
raises `InvalidOperation` out of the normalization (uncaught for dict
input); in the credit validator a non-coercible
`final_weighted_credit_score` raises `ValueError` (uncaught for dict
input, while the text path's surrounding `try` absorbs it by discarding
the whole record into `{}`). -/
theorem C2_coercion_failure_raises (kvs d : List (String × PyVal)) (s1 s2 : String)
    (h1 : dGet kvs ("total_amount") (.int 0) = .str s1)
    (h2 : parseNumStr s1.data = none)
    (h3 : dGet d ("final_weighted_credit_score") (.int 0) = .str s2)
    (h4 : parseNumStr s2.data = none) :
    normalizeInvoice kvs = .error ("InvalidOperation") ∧
      validate_credit_response (.dict d) = .error ("ValueError") := by
  constructor
  · have hd : pyDecimal (dGet kvs ("total_amount") (.int 0)) = .error ("InvalidOperation") := by
      rw [h1]
      simp [pyDecimal, h2]
    unfold normalizeInvoice normalizeBase
    rw [hd, exceptBind_error, exceptBind_error]
  · have hf : pyFloatCoerce (dGet d ("final_weighted_credit_score") (.int 0)) =
        .error ("ValueError") := by
      rw [h3]
      simp [pyFloatCoerce, h4]
    simp only [validate_credit_response]
    rw [hf, exceptBind_error]

/-- Claim C2 (counterexample): with `total_amount = "abc"` the invoice
normalizer raises instead of storing the default; with
`final_weighted_credit_score = "abc"` the credit validator raises for dict
input, and on the text path the whole record is aborted to `{}` (`none`)
rather than keeping defaulted or sibling fields. -/
theorem C2_counterexample :
    normalizeInvoice [(("total_amount"), .str ("abc"))] = .error ("InvalidOperation") ∧
      validate_credit_response (.dict [(("final_weighted_credit_score"), .str ("abc"))]) =
        .error ("ValueError") ∧
      parse_credit_score_response ("\x7b\"final_weighted_credit_score\": \"abc\"\x7d") =
        none :=
  ⟨rfl, rfl, rfl⟩

/-- Claim C2 (witness): the amended raising behaviour at the concrete
non-numeric string "abc". -/
theorem C2_witness :
    normalizeInvoice [(("total_amount"), .str ("abc"))] = .error ("InvalidOperation") ∧
      validate_credit_response (.dict [(("final_weighted_credit_score"), .str ("abc"))]) =
        .error ("ValueError") :=
  C2_coercion_failure_raises [(("total_amount"), .str ("abc"))]
    [(("final_weighted_credit_score"), .str ("abc"))] ("abc") ("abc")
    rfl (by decide) rfl (by decide)

theorem quantize2_1000 : quantize2 (1000 : ℚ) = 1000 := by
  norm_num [quantize2, roundHalfEven]

theorem quantize2_900 : quantize2 (900 : ℚ) = 900 := by
  norm_num [quantize2, roundHalfEven]

theorem quantize2_100 : quantize2 (100 : ℚ) = 100 := by
  norm_num [quantize2, roundHalfEven]

/-- Claim C5: when the coerced tax and extra-charge inputs both quantize
to 0 and the quantized difference between the total and the line-item sum
is nonzero, exactly one of the two receives the full difference: the tax
amount when the lower-cased `json.dumps` serialization of the decoded
record contains a tax keyword ("tax", "vat", "gst", "sales tax"), the
extra charges otherwise; the other stays 0. -/
theorem C5_tax_inference (kvs : List (String × PyVal)) (r : InvoiceRecord) (tv ev : ℚ)
    (h : normalizeInvoice kvs = .ok r)
    (htv : pyDecimal (dGet kvs ("tax_amount") (.int 0)) = .ok tv)
    (htv0 : quantize2 tv = 0)
    (hev : pyDecimal (dGet kvs ("extra_charges") (.int 0)) = .ok ev)
    (hev0 : quantize2 ev = 0)
    (hdiff : quantize2 (r.total_amount - (r.line_items.map LineItem.amount).sum) ≠ 0) :
    (taxKeywordHit (lowerStr (pyJsonDumps (.dict kvs))) = true →
        r.tax_amount = quantize2 (r.total_amount - (r.line_items.map LineItem.amount).sum) ∧
          r.extra_charges = 0) ∧
      (taxKeywordHit (lowerStr (pyJsonDumps (.dict kvs))) = false →
        r.extra_charges = quantize2 (r.total_amount - (r.line_items.map LineItem.amount).sum) ∧
          r.tax_amount = 0) := by
  rcases normalizeInvoice_ok_inv kvs r h with ⟨rb, hb, hr⟩
  rcases normalizeBase_ok_inv kvs rb hb with
    ⟨t2, p2, items, lis, tax, extra, h1, h2, h3, h4, h5, h6, hrb⟩
  rw [htv] at h5
  rw [hev] at h6
  have e5 : tv = tax := by simpa using h5
  have e6 : ev = extra := by simpa using h6
  subst e5
  subst e6
  have hT : rb.tax_amount = 0 := by rw [hrb]; exact htv0
  have hE : rb.extra_charges = 0 := by rw [hrb]; exact hev0
  have hpres := applyTaxInference_preserves kvs rb
  have hdiff2 : quantize2 (rb.total_amount - (rb.line_items.map LineItem.amount).sum) ≠ 0 := by
    rw [hr, hpres.1, hpres.2.2] at hdiff
    exact hdiff
  have hdiffeq : quantize2 (r.total_amount - (r.line_items.map LineItem.amount).sum) =
      quantize2 (rb.total_amount - (rb.line_items.map LineItem.amount).sum) := by
    rw [hr, hpres.1, hpres.2.2]
  constructor
  · intro hkw
    have hrr : r = { rb with
        tax_amount := quantize2 (rb.total_amount - (rb.line_items.map LineItem.amount).sum) } := by
      rw [hr]
      simp only [applyTaxInference]
      rw [if_pos ⟨hT, hE⟩, if_pos hdiff2, if_pos hkw]
    rw [hdiffeq, hrr]
    exact ⟨rfl, hE⟩
  · intro hkw
    have hkw2 : ¬ (taxKeywordHit (lowerStr (pyJsonDumps (.dict kvs))) = true) := by
      simp [hkw]
    have hrr : r = { rb with
        extra_charges := quantize2 (rb.total_amount - (rb.line_items.map LineItem.amount).sum) } := by
      rw [hr]
      simp only [applyTaxInference]
      rw [if_pos ⟨hT, hE⟩, if_pos hdiff2, if_neg hkw2]
    rw [hdiffeq, hrr]
    exact ⟨rfl, hT⟩

theorem normalizeBase_tax : normalizeBase taxKvsExample = .ok taxBaseExample := by
  simp +decide [normalizeBase, taxKvsExample, taxBaseExample, emptyInvoiceRec, dGet,
    pyDecimal, getItems, processItems, quantize2_zero, quantize2_intCast,
    exceptBind_ok, exceptPure]
  norm_num [quantize2_1000, quantize2_900]

theorem applyTax_tax :
    applyTaxInference taxKvsExample taxBaseExample = taxRecExample := by
  simp +decide [applyTaxInference, taxKvsExample, taxBaseExample, taxRecExample,
    emptyInvoiceRec]
  norm_num [quantize2_100]

theorem normalizeInvoice_tax : normalizeInvoice taxKvsExample = .ok taxRecExample := by
  unfold normalizeInvoice
  rw [normalizeBase_tax, exceptBind_ok, exceptPure, applyTax_tax]

/-- Claim C5 (witness): the spec's example — total 1000, one 900 line
item, serialized text containing "VAT" — yields tax 100.00 and extra 0. -/
theorem C5_witness :
    (taxKeywordHit (lowerStr (pyJsonDumps (.dict taxKvsExample))) = true →
        taxRecExample.tax_amount =
            quantize2 (taxRecExample.total_amount -
              (taxRecExample.line_items.map LineItem.amount).sum) ∧
          taxRecExample.extra_charges = 0) ∧
      (taxKeywordHit (lowerStr (pyJsonDumps (.dict taxKvsExample))) = false →
        taxRecExample.extra_charges =
            quantize2 (taxRecExample.total_amount -
              (taxRecExample.line_items.map LineItem.amount).sum) ∧
          taxRecExample.tax_amount = 0) :=
  C5_tax_inference taxKvsExample taxRecExample 0 0 normalizeInvoice_tax
    (by simp +decide [taxKvsExample, dGet, pyDecimal]) quantize2_zero
    (by simp +decide [taxKvsExample, dGet, pyDecimal]) quantize2_zero
    (by norm_num [taxRecExample, taxBaseExample, emptyInvoiceRec, quantize2_100])

/-- Claim C1 (amended): extraction and decode failures are absorbed — the
parse stage returns normally, never raising — but the returned value is
the empty dict `{}` (modelled as `none`), which carries no fields at all,
rather than a record with every schema field present at its default. -/
theorem C1_failure_yields_empty_dict (t1 t2 : String)
    (h1 : hasSubStr (lowerStr t1) ("no_invoice_found") = false)
    (h2 : jsonLoads (invoiceRepair (invoiceExtract t1.data)) = none)
    (h3 : ¬ (stripStr t2 = ""))
    (h4 : jsonLoads (invoiceRepair (creditExtract t2.data)) = none) :
    parse_invoice_information t1 = .ok none ∧ parse_credit_score_response t2 = none := by
  constructor
  · simp [parse_invoice_information, h1, h2]
  · simp [parse_credit_score_response, h3, h4]

/-- Claim C1 (counterexample): on the undecodable input "hello" both
parse stages return the empty dict `{}` (`none`) — not a record in which
every schema-declared field is present with its default, since `{}` has no
fields. -/
theorem C1_counterexample :
    parse_invoice_information ("hello") = .ok none ∧
      parse_credit_score_response ("hello") = none :=
  ⟨rfl, rfl⟩

/-- Claim C1 (witness): the amended empty-dict behaviour at "hello". -/
theorem C1_witness :
    parse_invoice_information ("hello") = .ok none ∧
      parse_credit_score_response ("hello") = none :=
  C1_failure_yields_empty_dict ("hello") ("hello") (by decide) rfl (by decide) rfl

/-! Characterization of the market balanced-brace extraction. -/

theorem pyWs_not_brace (c : Char) (h : pyWs c = true) : isBrace c = false := by
  simp only [pyWs, decide_eq_true_eq] at h
  rcases h with rfl | rfl | rfl | rfl | rfl | rfl <;> decide

theorem toNat96_not_brace (t : Char) (h : t.toNat = 96) : isBrace t = false := by
  simp only [isBrace, decide_eq_false_iff_not, not_or]
  constructor <;> rintro rfl <;> exact absurd h (by decide)

theorem toLower_j_not_brace (t : Char) (x : Char) (h : t.toLower = x)
    (h1 : ('\x7b').toLower ≠ x) (h2 : ('\x7d').toLower ≠ x) : isBrace t = false := by
  simp only [isBrace, decide_eq_false_iff_not, not_or]
  constructor <;> rintro rfl
  · exact h1 h
  · exact h2 h

theorem balAux_isSome : ∀ (l : List Char) (d : ℕ),
    (balAux d l).isSome = depthScanZero d l := by
  intro l
  induction l with
  | nil => intro d; rfl
  | cons c rest ih =>
    intro d
    simp only [balAux, depthScanZero]
    by_cases h1 : c = '\x7b'
    · simp [h1, ih]
    · by_cases h2 : c = '\x7d'
      · by_cases h3 : d = 1 <;> simp [h1, h2, h3, ih]
      · simp [h1, h2, ih]

theorem depthScanZero_filter : ∀ (l : List Char) (d : ℕ),
    depthScanZero d (l.filter isBrace) = depthScanZero d l := by
  intro l
  induction l with
  | nil => intro d; rfl
  | cons c rest ih =>
    intro d
    by_cases h1 : c = '\x7b'
    · subst h1
      rw [List.filter_cons_of_pos (by decide)]
      simp only [depthScanZero, if_pos rfl]
      exact ih _
    · by_cases h2 : c = '\x7d'
      · subst h2
        rw [List.filter_cons_of_pos (by decide)]
        simp only [depthScanZero]
        rw [if_neg (by decide)]
        by_cases h3 : d = 1
        · simp [h3]
        · simp only [if_pos rfl, if_neg h3]
          exact ih _
      · have hnb : isBrace c = false := by
          simp only [isBrace, decide_eq_false_iff_not, not_or]
          exact ⟨h1, h2⟩
        rw [List.filter_cons_of_neg (by simp [hnb])]
        simp only [depthScanZero, if_neg h1, if_neg h2]
        exact ih _

theorem extractBalanced_cons_ne (c : Char) (rest : List Char) (h : ¬ (c = '\x7b')) :
    extractBalanced (c :: rest) = extractBalanced rest := by
  simp [extractBalanced, List.dropWhile, h]

theorem extractBalanced_isSome : ∀ (l : List Char),
    (extractBalanced l).isSome = depthScanZero 0 l := by
  intro l
  induction l with
  | nil => rfl
  | cons c rest ih =>
    by_cases h1 : c = '\x7b'
    · subst h1
      simp only [extractBalanced, List.dropWhile]
      rw [depthScanZero]
      simp [balAux_isSome]
    · rw [extractBalanced_cons_ne c rest h1, ih]
      by_cases h2 : c = '\x7d'
      · subst h2
        simp [depthScanZero]
      · simp [depthScanZero, h1, h2]

theorem fenceJson7_chars (l : List Char) (h : fenceJson7 l = true) :
    ∃ t1 t2 t3 a b c d r, l = t1 :: t2 :: t3 :: a :: b :: c :: d :: r ∧
      isBrace t1 = false ∧ isBrace t2 = false ∧ isBrace t3 = false ∧
      isBrace a = false ∧ isBrace b = false ∧ isBrace c = false ∧ isBrace d = false := by
  match l with
  | [] => simp [fenceJson7] at h
  | [t1] => simp [fenceJson7] at h
  | [t1, t2] => simp [fenceJson7] at h
  | [t1, t2, t3] => simp [fenceJson7] at h
  | [t1, t2, t3, a] => simp [fenceJson7] at h
  | [t1, t2, t3, a, b] => simp [fenceJson7] at h
  | [t1, t2, t3, a, b, c] => simp [fenceJson7] at h
  | t1 :: t2 :: t3 :: a :: b :: c :: d :: r =>
    simp only [fenceJson7, decide_eq_true_eq] at h
    obtain ⟨e1, e2, e3, e4, e5, e6, e7⟩ := h
    exact ⟨t1, t2, t3, a, b, c, d, r, rfl,
      toNat96_not_brace _ e1, toNat96_not_brace _ e2, toNat96_not_brace _ e3,
      toLower_j_not_brace _ _ e4 (by decide) (by decide),
      toLower_j_not_brace _ _ e5 (by decide) (by decide),
      toLower_j_not_brace _ _ e6 (by decide) (by decide),
      toLower_j_not_brace _ _ e7 (by decide) (by decide)⟩

theorem fence3_chars (l : List Char) (h : fence3 l = true) :
    ∃ t1 t2 t3 r, l = t1 :: t2 :: t3 :: r ∧
      isBrace t1 = false ∧ isBrace t2 = false ∧ isBrace t3 = false := by
  match l with
  | [] => simp [fence3] at h
  | [t1] => simp [fence3] at h
  | [t1, t2] => simp [fence3] at h
  | t1 :: t2 :: t3 :: r =>
    simp only [fence3, decide_eq_true_eq] at h
    obtain ⟨e1, e2, e3⟩ := h
    exact ⟨t1, t2, t3, r, rfl,
      toNat96_not_brace _ e1, toNat96_not_brace _ e2, toNat96_not_brace _ e3⟩

theorem stripJsonFenceAux_filter : ∀ (skip : Bool) (l : List Char),
    (stripJsonFenceAux skip l).filter isBrace = l.filter isBrace := by
  intro skip l
  induction skip, l using stripJsonFenceAux.induct with
  | case1 skip => simp [stripJsonFenceAux]
  | case2 skip x rest hws ih =>
    rw [stripJsonFenceAux, if_pos hws, ih,
      List.filter_cons_of_neg (by simp [pyWs_not_brace x hws.2])]
  | case3 skip x rest hws hfence ih =>
    rw [stripJsonFenceAux, if_neg hws, if_pos hfence, ih]
    rcases fenceJson7_chars (x :: rest) hfence with
      ⟨t1, t2, t3, a, b, c, d, r, heq, n1, n2, n3, n4, n5, n6, n7⟩
    obtain ⟨rfl, hrest⟩ : x = t1 ∧ rest = t2 :: t3 :: a :: b :: c :: d :: r := by
      injection heq with h1 h2
      exact ⟨h1, h2⟩
    subst hrest
    simp [List.filter_cons, n1, n2, n3, n4, n5, n6, n7]
  | case4 skip x rest hws hfence ih =>
    rw [stripJsonFenceAux, if_neg hws, if_neg hfence, List.filter_cons, List.filter_cons, ih]

theorem stripTicksAux_filter : ∀ (skip : Bool) (l : List Char),
    (stripTicksAux skip l).filter isBrace = l.filter isBrace := by
  intro skip l
  induction skip, l using stripTicksAux.induct with
  | case1 skip => simp [stripTicksAux]
  | case2 skip x rest hws ih =>
    rw [stripTicksAux, if_pos hws, ih,
      List.filter_cons_of_neg (by simp [pyWs_not_brace x hws.2])]
  | case3 skip x rest hws hfence ih =>
    rw [stripTicksAux, if_neg hws, if_pos hfence, ih]
    rcases fence3_chars (x :: rest) hfence with ⟨t1, t2, t3, r, heq, n1, n2, n3⟩
    obtain ⟨rfl, hrest⟩ : x = t1 ∧ rest = t2 :: t3 :: r := by
      injection heq with h1 h2
      exact ⟨h1, h2⟩
    subst hrest
    simp [List.filter_cons, n1, n2, n3]
  | case4 skip x rest hws hfence ih =>
    rw [stripTicksAux, if_neg hws, if_neg hfence, List.filter_cons, List.filter_cons, ih]

theorem normalizeInvoice_strbrace :
    normalizeInvoice [(("a"), .str ("\x7b"))] = .ok emptyInvoiceRec := by
  have hbase : normalizeBase [(("a"), .str ("\x7b"))] = .ok emptyInvoiceRec := by
    simp +decide [normalizeBase, emptyInvoiceRec, dGet, pyDecimal, getItems,
      processItems, quantize2_zero, exceptBind_ok, exceptPure]
  have happ : applyTaxInference [(("a"), .str ("\x7b"))] emptyInvoiceRec =
      emptyInvoiceRec := by
    simp [applyTaxInference, emptyInvoiceRec, quantize2_zero]
  unfold normalizeInvoice
  rw [hbase, exceptBind_ok, exceptPure, happ]

/-- Claim C8 (amended): for the market analyzer, any input whose
balanced-brace scan never returns to depth zero yields the empty dict, and
the invoice stage returns the empty dict on the spec's unbalanced example
`{"a": {"b": 1}`.  (The invoice stage does not use the balanced scan — it
extracts greedily from the first `{` to the last `}` — so the universal
statement fails for it; see the counterexample.) -/
theorem C8_unbalanced_braces (text : String)
    (hb : hasLBrace text.data = true)
    (hs : scanReturnsZero text.data = false) :
    parse_platform_analysis text = .dict [] ∧
      parse_invoice_information ("\x7b\"a\": \x7b\"b\": 1\x7d") = .ok none := by
  constructor
  · unfold parse_platform_analysis
    by_cases hst : stripStr text = ""
    · simp [hst]
    · rw [if_neg hst]
      have h2 : depthScanZero 0 (stripTicks (stripJsonFence text.data)) =
          depthScanZero 0 text.data := by
        rw [← depthScanZero_filter (stripTicks (stripJsonFence text.data)) 0]
        rw [stripTicks, stripTicksAux_filter, stripJsonFence, stripJsonFenceAux_filter]
        exact depthScanZero_filter text.data 0
      have h1 := extractBalanced_isSome (stripTicks (stripJsonFence text.data))
      rw [h2] at h1
      rw [scanReturnsZero] at hs
      rw [hs] at h1
      have hnone : extractBalanced (stripTicks (stripJsonFence text.data)) = none := by
        rcases hopt : extractBalanced (stripTicks (stripJsonFence text.data)) with _ | v
        · rfl
        · rw [hopt] at h1
          simp at h1
      simp [hnone]
  · rfl

/-- Claim C8 (counterexample): the input `{"a": "{"}` contains a `{` whose
balanced-brace scan never returns to depth zero (the inner `{` sits inside
a string literal), yet the invoice parse stage succeeds and returns a
fully-populated record, not the empty default record. -/
theorem C8_counterexample :
    hasLBrace (("\x7b\"a\": \"\x7b\"\x7d").data) = true ∧
      scanReturnsZero (("\x7b\"a\": \"\x7b\"\x7d").data) = false ∧
      parse_invoice_information ("\x7b\"a\": \"\x7b\"\x7d") = .ok (some emptyInvoiceRec) := by
  refine ⟨by decide, by decide, ?_⟩
  have hextr : jsonLoads (invoiceRepair (invoiceExtract (("\x7b\"a\": \"\x7b\"\x7d").data))) =
      some (.dict [(("a"), .str ("\x7b"))]) := rfl
  simp +decide [parse_invoice_information, hextr, normalizeInvoice_strbrace, exceptMap_ok]

/-- Claim C8 (witness): the amended market statement applied at the
concrete unbalanced input `{x`. -/
theorem C8_witness :
    parse_platform_analysis ("\x7bx") = .dict [] ∧
      parse_invoice_information ("\x7b\"a\": \x7b\"b\": 1\x7d") = .ok none :=
  C8_unbalanced_braces ("\x7bx") (by decide) (by decide)

end Nexora
